import Mathlib

/-!
The poll cycle of rabbitmq_exporter (`main.go`).

A shallow embedding of the polling code of `main.go` (`sendApiRequest`,
`decodeObj`, `decodeObjArray`, `getOverview`, `getNumberOfMessages`,
`requestData`, `runRequestLoop`, `updateNodesStats`) and the properties of
its metric updates, its sleeps and its panic recovery.

Conventions of the embedding:

* `float64` is an arbitrary type `V` with a zero and an addition.  The code
  only copies such values and adds them left to right starting from `0.0`;
  no law of addition is assumed, so every statement holds for IEEE doubles.
* A Go `map[string]T` is an association list read by first match
  (`AssocMap.get`); `range` visits every key of the map once
  (`AssocMap.range`).  A nil map reads like the empty map.
* The six global `GaugeVec`s form one store keyed by gauge and label.
* A panic is an outcome value; `recover` in a deferred function is a match on it.
* `time.Sleep` and the HTTP calls are recorded in a chronological trace.
  Logging is not recorded.
* `time.Duration` is an integer number of nanoseconds; `time.ParseDuration`
  belongs to the Go standard library and is a parameter of `requestData`.
-/

namespace RabbitmqExporter

/-! ## Association maps -/

/-- Map read `m[k]` with the presence flag: the first entry under key `k`. -/
def AssocMap.get {K A : Type} [DecidableEq K] : List (K × A) → K → Option A
  | [], _ => none
  | (k', a) :: rest, k => if k' = k then some a else AssocMap.get rest k

/-- Map write `m[k] = a`: overwrite the entry under `k`, or add one. -/
def AssocMap.set {K A : Type} [DecidableEq K] : List (K × A) → K → A → List (K × A)
  | [], k, a => [(k, a)]
  | (k', a') :: rest, k, a =>
    if k' = k then (k, a) :: rest else (k', a') :: AssocMap.set rest k a

/-- Entries of the map whose key is not in `seen`, each key once. -/
def AssocMap.rangeFrom {K A : Type} [DecidableEq K] :
    List K → List (K × A) → List (K × A)
  | _, [] => []
  | seen, (k, a) :: rest =>
    if k ∈ seen then AssocMap.rangeFrom seen rest
    else (k, a) :: AssocMap.rangeFrom (k :: seen) rest

/-- The entries a `for k, v := range m` loop visits: one per key of the map. -/
def AssocMap.range {K A : Type} [DecidableEq K] (m : List (K × A)) : List (K × A) :=
  AssocMap.rangeFrom [] m

/-! ## Decoded JSON -/

/-- A value of Go type `interface{}` as produced by `encoding/json`:
`nil`, `bool`, `float64`, `string`, `[]interface{}` or `map[string]interface{}`. -/
inductive JVal (V : Type) where
  | null : JVal V
  | bool (b : Bool) : JVal V
  | num (x : V) : JVal V
  | str (s : String) : JVal V
  | arr (items : List (JVal V)) : JVal V
  | obj (fields : List (String × JVal V)) : JVal V

/-- Go type `map[string]interface{}`. -/
abbrev GoMap (V : Type) := List (String × JVal V)

/-- Whether the dynamic type of the value is `float64`. -/
def JVal.isNum {V : Type} : JVal V → Bool
  | .num _ => true
  | _ => false

/-- What a `json.Decoder` over a response body holds: the first JSON value of
the body, or nothing when the body is not valid JSON. -/
abbrev Body (V : Type) := Option (JVal V)

/-! ## Metric store, effects, outcomes -/

/-- The six gauge vectors declared at the top of `main.go`. -/
inductive Gauge where
  | connectionsTotal
  | channelsTotal
  | queuesTotal
  | consumersTotal
  | exchangesTotal
  | messagesTotal
  deriving DecidableEq, Repr

/-- The children of the six gauge vectors: (gauge, value of label `node`) to value. -/
abbrev Store (V : Type) := List ((Gauge × String) × V)

/-- Observable effects of a poller: `fetch` is a call of `sendApiRequest` for
a URL with the given credentials, `sleep` a call of `time.Sleep`. -/
inductive Event where
  | fetch (url username password : String)
  | sleep (nanoseconds : Int)
  deriving DecidableEq, Repr

/-- State threaded through the poller: the metric store and the effect trace. -/
structure PState (V : Type) where
  store : Store V
  trace : List Event

/-- The kinds of Go panic the polling code can raise. -/
inductive Panic where
  | transport
  | nilDereference
  | typeAssertion
  | indexOutOfRange
  deriving DecidableEq, Repr

/-- How a call ends: it returns, or a panic leaves it. -/
inductive Outcome where
  | returned
  | panicked (p : Panic)
  deriving DecidableEq, Repr

/-- What the HTTP layer does with one GET: `http.NewRequest` yields no request,
`client.Do` yields an error, or a response with a body arrives (whatever its
status code, which the code does not inspect). -/
inductive ApiResult (V : Type) where
  | invalidRequest : ApiResult V
  | transportError : ApiResult V
  | response (body : Body V) : ApiResult V

/-- Constant `time.Second`, in nanoseconds. -/
def second : Int := 1000000000

/-- The call `GaugeVec.WithLabelValues(label).Set(value)`: the child of the
vector under `label` is created when absent and then set. -/
def setGauge {V : Type} (g : Gauge) (label : String) (value : V) (st : PState V) : PState V :=
  { st with store := AssocMap.set st.store (g, label) value }

/-- The call `time.Sleep(d)`. -/
def sleep {V : Type} (d : Int) (st : PState V) : PState V :=
  { st with trace := st.trace ++ [Event.sleep d] }

/-! ## The polling code -/

/-- Function `sendApiRequest`: a GET of `hostname+query` with basic authentication.
A nil request makes `req.SetBasicAuth` panic, an error of `client.Do` is
re-raised with `panic(err)`, otherwise the decoder over the body is returned. -/
def sendApiRequest {V : Type} (hostname username password query : String)
    (reply : ApiResult V) (st : PState V) : Except Panic (Body V) × PState V :=
  let st1 : PState V :=
    { st with trace := st.trace ++ [Event.fetch (hostname ++ query) username password] }
  match reply with
  | .invalidRequest => (.error .nilDereference, st1)
  | .transportError => (.error .transport, st1)
  | .response body => (.ok body, st1)

/-- Function `decodeObj`: decode into a `map[string]interface{}`.  A decoding error is
logged and the map stays nil; JSON `null` also leaves it nil. -/
def decodeObj {V : Type} : Body V → GoMap V
  | some (.obj fields) => fields
  | _ => []

/-- Function `decodeObjArray`: decode into a `[]map[string]interface{}`.  An element
that is not an object stays a nil map and the error is logged; a body that is
not an array leaves the slice nil. -/
def decodeObjArray {V : Type} : Body V → List (GoMap V)
  | some (.arr items) =>
    items.map (fun item => match item with
      | .obj fields => fields
      | _ => [])
  | _ => []

/-- The loop of `getOverview`: `metrics[k] = v.(float64)` for every visited
entry; the type assertion panics on a value that is not a `float64`. -/
def overviewLoop {V : Type} : List (String × JVal V) → List (String × V) →
    Option (List (String × V))
  | [], metrics => some metrics
  | (k, .num x) :: rest, metrics => overviewLoop rest (AssocMap.set metrics k x)
  | _ :: _, _ => none

/-- Read `metrics[k]` of a `map[string]float64`: the zero value when absent. -/
def index {V : Type} [Zero V] (metrics : List (String × V)) (k : String) : V :=
  match AssocMap.get metrics k with
  | some x => x
  | none => 0

/-- The statement `nodename, _ := response["node"].(string)`. -/
def nodenameOf {V : Type} (response : GoMap V) : String :=
  match AssocMap.get response "node" with
  | some (.str s) => s
  | _ => ""

/-- Function `getOverview`: fetch `/api/overview`, copy the numeric fields of
`object_totals` into `metrics`, read the node name, set five gauges. -/
def getOverview {V : Type} [Zero V] (hostname username password : String)
    (reply : ApiResult V) (st : PState V) : Outcome × PState V :=
  match sendApiRequest hostname username password "/api/overview" reply st with
  | (.error p, st1) => (.panicked p, st1)
  | (.ok decoder, st1) =>
    let response := decodeObj decoder
    match AssocMap.get response "object_totals" with
    | some (.obj totals) =>
      match overviewLoop (AssocMap.range totals) [] with
      | none => (.panicked .typeAssertion, st1)
      | some metrics =>
        let nodename := nodenameOf response
        let st2 := setGauge .channelsTotal nodename (index metrics "channels") st1
        let st3 := setGauge .connectionsTotal nodename (index metrics "connections") st2
        let st4 := setGauge .consumersTotal nodename (index metrics "consumers") st3
        let st5 := setGauge .queuesTotal nodename (index metrics "queues") st4
        let st6 := setGauge .exchangesTotal nodename (index metrics "exchanges") st5
        (.returned, st6)
    | _ => (.panicked .typeAssertion, st1)

/-- The loop of `getNumberOfMessages`: `total_messages += v["messages"].(float64)`. -/
def messagesLoop {V : Type} [Add V] : List (GoMap V) → V → Option V
  | [], total => some total
  | v :: rest, total =>
    match AssocMap.get v "messages" with
    | some (.num x) => messagesLoop rest (total + x)
    | _ => none

/-- Function `getNumberOfMessages`: fetch `/api/queues`, read the node name of
the first element, add up `messages`, set messages_total. -/
def getNumberOfMessages {V : Type} [Zero V] [Add V] (hostname username password : String)
    (reply : ApiResult V) (st : PState V) : Outcome × PState V :=
  match sendApiRequest hostname username password "/api/queues" reply st with
  | (.error p, st1) => (.panicked p, st1)
  | (.ok decoder, st1) =>
    match decodeObjArray decoder with
    | [] => (.panicked .indexOutOfRange, st1)
    | first :: others =>
      match AssocMap.get first "node" with
      | some (.str nodename) =>
        match messagesLoop (first :: others) 0 with
        | none => (.panicked .typeAssertion, st1)
        | some total_messages =>
          (.returned, setGauge .messagesTotal nodename total_messages st1)
      | _ => (.panicked .typeAssertion, st1)

/-- Struct `Node`. -/
structure Node where
  Name : String
  Url : String
  Uname : String
  Password : String
  Interval : String
  deriving DecidableEq, Repr

/-- Struct `Config`; `Nodes` is a pointer and may be nil. -/
structure Config where
  Nodes : Option (List Node)
  Port : String
  Interval : String
  deriving DecidableEq, Repr

/-- Function `requestData`: one poll cycle.  `overview` and `queues` are what the HTTP
layer does with the first and the second GET of the cycle; `parseDuration` is
`time.ParseDuration` (`none` for an error). -/
def requestData {V : Type} [Zero V] [Add V] (parseDuration : String → Option Int)
    (node : Node) (overview queues : ApiResult V) (st : PState V) : Outcome × PState V :=
  let body : Outcome × PState V :=
    match getOverview node.Url node.Uname node.Password overview st with
    | (.panicked p, st1) => (.panicked p, st1)
    | (.returned, st1) =>
      match getNumberOfMessages node.Url node.Uname node.Password queues st1 with
      | (.panicked p, st2) => (.panicked p, st2)
      | (.returned, st2) =>
        let dt : Int :=
          match parseDuration node.Interval with
          | some d => d
          | none => 30 * second
        (.returned, sleep dt st2)
  -- the deferred function: `recover()` is non-nil exactly after a panic
  match body with
  | (.panicked _, st3) => (.returned, sleep (10 * second) st3)
  | (.returned, st3) => (.returned, st3)

/-- Function `runRequestLoop`, observed after `cycles` iterations of its endless loop,
iteration numbers starting at `k`; `broker k` is what the HTTP layer does with
the two GETs of iteration `k`.  The result is `none` while the loop is still
running and `some p` when panic `p` has left `requestData` and the loop. -/
def runRequestLoop {V : Type} [Zero V] [Add V] (parseDuration : String → Option Int)
    (node : Node) (broker : Nat → ApiResult V × ApiResult V) :
    Nat → Nat → PState V → Option Panic × PState V
  | 0, _, st => (none, st)
  | cycles + 1, k, st =>
    match requestData parseDuration node (broker k).1 (broker k).2 st with
    | (.panicked p, st1) => (some p, st1)
    | (.returned, st1) => runRequestLoop parseDuration node broker cycles (k + 1) st1

/-- The loop of `updateNodesStats`: `node` is a copy of the slice element, its
`Interval` is replaced when empty, and `go runRequestLoop(node)` is recorded
with the node it receives. -/
def launchLoop (globalInterval : String) : List Node → List Node → List Node
  | [], launched => launched
  | node :: rest, launched =>
    let node1 : Node :=
      if node.Interval.utf8ByteSize = 0 then { node with Interval := globalInterval } else node
    launchLoop globalInterval rest (launched ++ [node1])

/-- Function `updateNodesStats`: the outcome, the configuration afterwards and the
arguments of the launched `runRequestLoop` goroutines, in launch order.
Dereferencing a nil `config.Nodes` panics. -/
def updateNodesStats (config : Config) : Outcome × Config × List Node :=
  match config.Nodes with
  | none => (.panicked .nilDereference, config, [])
  | some nodes => (.returned, config, launchLoop config.Interval nodes [])

/-- The gauge each statement of lines 128 to 132 of `main.go` sets, with the
key of `metrics` it reads. -/
def overviewGauges : List (Gauge × String) :=
  [(.channelsTotal, "channels"), (.connectionsTotal, "connections"),
   (.consumersTotal, "consumers"), (.queuesTotal, "queues"),
   (.exchangesTotal, "exchanges")]

/-- A sample of results of `time.ParseDuration`, for instantiating the parameter. -/
def sampleParseDuration : String → Option Int
  | "45s" => some (45 * second)
  | "1m" => some (60 * second)
  | "0" => some 0
  | _ => none

/-- Field `f` of the `object_totals` object as a `float64`, `0.0` when the
object has no such field. -/
def totalOf {V : Type} [Zero V] (totals : GoMap V) (f : String) : V :=
  match AssocMap.get totals f with
  | some (.num x) => x
  | _ => 0

/-- Every field of the object is a JSON number. -/
def allNumeric {V : Type} (totals : GoMap V) : Bool :=
  (AssocMap.range totals).all (fun e => e.2.isNum)

/-- The store after the five gauge updates of `getOverview` for label `L`. -/
def overviewStore {V : Type} [Zero V] (totals : GoMap V) (L : String) (store : Store V) :
    Store V :=
  AssocMap.set (AssocMap.set (AssocMap.set (AssocMap.set (AssocMap.set store
    (.channelsTotal, L) (totalOf totals "channels"))
    (.connectionsTotal, L) (totalOf totals "connections"))
    (.consumersTotal, L) (totalOf totals "consumers"))
    (.queuesTotal, L) (totalOf totals "queues"))
    (.exchangesTotal, L) (totalOf totals "exchanges")

/-! ## Sample inputs -/

/-- A configured node with its own interval. -/
def sampleNode : Node := ⟨"node-a", "http://a:15672", "guest", "guest", "45s"⟩

/-- A configured node without an interval of its own. -/
def sampleNodeB : Node := ⟨"node-b", "http://b:15672", "admin", "secret", ""⟩

/-- A configuration with the two sample nodes and a global interval. -/
def sampleConfig : Config := ⟨some [sampleNode, sampleNodeB], "9090", "1m"⟩

/-- An `object_totals` object with its five fields. -/
def sampleTotals : GoMap Int :=
  [("channels", .num 3), ("connections", .num 2), ("consumers", .num 1),
   ("exchanges", .num 7), ("queues", .num 4)]

/-- An overview payload of the broker node "rabbit@a". -/
def sampleOverview : GoMap Int :=
  [("object_totals", .obj sampleTotals), ("node", .str "rabbit@a")]

/-- A queue-list payload: two queues, the second on another node. -/
def sampleQueues : Body Int :=
  some (.arr [.obj [("name", .str "q1"), ("node", .str "rabbit@a"), ("messages", .num 5)],
    .obj [("name", .str "q2"), ("node", .str "rabbit@other"), ("messages", .num 7)]])

/-- An `object_totals` object of the broker node "rabbit@b". -/
def sampleTotalsB : GoMap Int :=
  [("channels", .num 30), ("connections", .num 20), ("consumers", .num 10),
   ("exchanges", .num 70), ("queues", .num 40)]

/-- An overview payload of the broker node "rabbit@b". -/
def sampleOverviewB : GoMap Int :=
  [("object_totals", .obj sampleTotalsB), ("node", .str "rabbit@b")]

/-- A queue-list payload of the broker node "rabbit@b": one queue. -/
def sampleQueuesB : Body Int :=
  some (.arr [.obj [("name", .str "q3"), ("node", .str "rabbit@b"), ("messages", .num 9)]])

/-- An overview payload whose `object_totals` has no `channels` field. -/
def overviewWithoutChannels : GoMap Int :=
  [("object_totals", .obj [("connections", .num 2), ("consumers", .num 1),
      ("exchanges", .num 7), ("queues", .num 4)]),
   ("node", .str "rabbit@a")]

/-- An overview payload without a top-level `node`. -/
def overviewWithoutNode : GoMap Int :=
  [("object_totals", .obj sampleTotals)]

/-- An overview payload whose top-level `node` is a number. -/
def overviewWithNumericNode : GoMap Int :=
  [("object_totals", .obj sampleTotals), ("node", .num 5)]

/-- An overview payload whose `channels` field is a string. -/
def overviewWithTextChannels : GoMap Int :=
  [("object_totals", .obj [("channels", .str "3"), ("connections", .num 2)]),
   ("node", .str "rabbit@a")]

/-! ## Association map lemmas -/

theorem AssocMap.get_set {K A : Type} [DecidableEq K] (m : List (K × A)) (k k' : K) (a : A) :
    AssocMap.get (AssocMap.set m k a) k' = if k = k' then some a else AssocMap.get m k' := by
  induction m with
  | nil => simp [AssocMap.set, AssocMap.get]
  | cons e rest ih =>
    obtain ⟨k0, a0⟩ := e
    by_cases h0 : k0 = k
    · subst h0
      by_cases h1 : k0 = k' <;> simp [AssocMap.set, AssocMap.get, h1]
    · by_cases h1 : k0 = k'
      · subst h1
        have : ¬ k = k0 := fun h => h0 h.symm
        simp [AssocMap.set, AssocMap.get, h0, this]
      · simp [AssocMap.set, AssocMap.get, h0, h1, ih]

theorem AssocMap.get_set_self {K A : Type} [DecidableEq K] (m : List (K × A)) (k : K) (a : A) :
    AssocMap.get (AssocMap.set m k a) k = some a := by
  simp [AssocMap.get_set]

theorem AssocMap.get_set_of_ne {K A : Type} [DecidableEq K] (m : List (K × A)) (k k' : K)
    (a : A) (h : k ≠ k') : AssocMap.get (AssocMap.set m k a) k' = AssocMap.get m k' := by
  simp [AssocMap.get_set, h]

theorem AssocMap.length_set {K A : Type} [DecidableEq K] (m : List (K × A)) (k : K) (a : A) :
    (AssocMap.set m k a).length =
      if (AssocMap.get m k).isSome then m.length else m.length + 1 := by
  induction m with
  | nil => simp [AssocMap.set, AssocMap.get]
  | cons e rest ih =>
    obtain ⟨k0, a0⟩ := e
    by_cases h0 : k0 = k
    · simp [AssocMap.set, AssocMap.get, h0]
    · simp only [AssocMap.set, AssocMap.get, h0, if_false, List.length_cons, ih]
      split <;> rfl

theorem AssocMap.mem_rangeFrom {K A : Type} [DecidableEq K] (m : List (K × A)) :
    ∀ (seen : List K) (k : K) (a : A),
      (k, a) ∈ AssocMap.rangeFrom seen m ↔ k ∉ seen ∧ AssocMap.get m k = some a := by
  induction m with
  | nil => intro seen k a; simp [AssocMap.rangeFrom, AssocMap.get]
  | cons e rest ih =>
    intro seen k a
    obtain ⟨k0, a0⟩ := e
    by_cases hs : k0 ∈ seen
    · simp only [AssocMap.rangeFrom, hs, if_true, ih, AssocMap.get]
      by_cases hk : k0 = k
      · subst hk
        simp [hs]
      · simp [hk]
    · simp only [AssocMap.rangeFrom, hs, if_false, List.mem_cons, ih, AssocMap.get,
        Prod.mk.injEq]
      by_cases hk : k0 = k
      · subst hk
        simp only [if_true, Option.some.injEq, true_and, true_or, not_true_eq_false,
          false_and, or_false, hs, not_false_eq_true]
        exact eq_comm
      · have hk' : ¬ k = k0 := fun h => hk h.symm
        simp [hk, hk']

theorem AssocMap.mem_range {K A : Type} [DecidableEq K] (m : List (K × A)) (k : K) (a : A) :
    (k, a) ∈ AssocMap.range m ↔ AssocMap.get m k = some a := by
  simp [AssocMap.range, AssocMap.mem_rangeFrom]

/-! ## The loops -/

theorem allNumeric_iff {V : Type} (totals : GoMap V) :
    allNumeric totals = true ↔
      ∀ k v, AssocMap.get totals k = some v → v.isNum = true := by
  unfold allNumeric
  rw [List.all_eq_true]
  constructor
  · intro h k v hkv
    exact h (k, v) ((AssocMap.mem_range totals k v).2 hkv)
  · rintro h ⟨k, v⟩ hmem
    exact h k v ((AssocMap.mem_range totals k v).1 hmem)

theorem overviewLoop_eq_none_iff {V : Type} (l : List (String × JVal V)) :
    ∀ acc : List (String × V),
      overviewLoop l acc = none ↔ ∃ e ∈ l, e.2.isNum = false := by
  induction l with
  | nil => intro acc; simp [overviewLoop]
  | cons e rest ih =>
    intro acc
    obtain ⟨k, v⟩ := e
    cases v <;> simp [overviewLoop, JVal.isNum, ih]

theorem overviewLoop_get {V : Type} (l : List (String × JVal V)) :
    ∀ (acc r : List (String × V)), overviewLoop l acc = some r →
      ∀ k : String,
        ((∀ v, (k, v) ∉ l) → AssocMap.get r k = AssocMap.get acc k) ∧
        (∀ x, (∃ v, (k, v) ∈ l) → (∀ v, (k, v) ∈ l → v = JVal.num x) →
          AssocMap.get r k = some x) := by
  induction l with
  | nil =>
    intro acc r h k
    simp only [overviewLoop, Option.some.injEq] at h
    subst h
    simp
  | cons e rest ih =>
    intro acc r h k
    obtain ⟨k0, v0⟩ := e
    cases v0 with
    | num x0 =>
      simp only [overviewLoop] at h
      have ih1 := ih (AssocMap.set acc k0 x0) r h k
      constructor
      · intro hno
        have hne : k0 ≠ k := by
          intro hk
          exact hno (JVal.num x0) (by simp [hk])
        rw [ih1.1 (fun v hv => hno v (List.mem_cons_of_mem _ hv))]
        exact AssocMap.get_set_of_ne acc k0 k x0 hne
      · intro x _ hall
        by_cases hrest : ∃ v, (k, v) ∈ rest
        · exact ih1.2 x hrest (fun v hv => hall v (List.mem_cons_of_mem _ hv))
        · have hno : ∀ v, (k, v) ∉ rest := fun v hv => hrest ⟨v, hv⟩
          rw [ih1.1 hno]
          by_cases hk : k0 = k
          · subst hk
            have hx : JVal.num x0 = JVal.num x := hall (JVal.num x0) (by simp)
            cases hx
            exact AssocMap.get_set_self acc k0 x0
          · exfalso
            rename_i hex
            obtain ⟨v, hv⟩ := hex
            rcases List.mem_cons.1 hv with heq | hmem
            · exact hk (by cases heq; rfl)
            · exact hno v hmem
    | null => simp [overviewLoop] at h
    | bool b => simp [overviewLoop] at h
    | str s => simp [overviewLoop] at h
    | arr items => simp [overviewLoop] at h
    | obj fields => simp [overviewLoop] at h

/-- After the loop of `getOverview` over an object, `metrics[f]` is the field
`f` of the object, or zero when the object has no such field. -/
theorem index_overviewLoop {V : Type} [Zero V] (totals : GoMap V) (metrics : List (String × V))
    (h : overviewLoop (AssocMap.range totals) [] = some metrics) (f : String) :
    index metrics f = totalOf totals f := by
  have hk := overviewLoop_get (AssocMap.range totals) [] metrics h f
  have hnum : ∀ k v, AssocMap.get totals k = some v → v.isNum = true := by
    intro k v hkv
    by_contra hv
    have : overviewLoop (AssocMap.range totals) ([] : List (String × V)) = none :=
      (overviewLoop_eq_none_iff _ _).2
        ⟨(k, v), (AssocMap.mem_range totals k v).2 hkv, by simpa using hv⟩
    rw [this] at h
    cases h
  cases hget : AssocMap.get totals f with
  | none =>
    have h1 : AssocMap.get metrics f = AssocMap.get ([] : List (String × V)) f :=
      hk.1 (fun v hv => by
        have := (AssocMap.mem_range totals f v).1 hv
        rw [hget] at this
        cases this)
    simp [index, totalOf, hget, h1, AssocMap.get]
  | some v =>
    have hv := hnum f v hget
    cases v with
    | num x =>
      have h2 : AssocMap.get metrics f = some x :=
        hk.2 x ⟨JVal.num x, (AssocMap.mem_range totals f _).2 hget⟩ (fun v hv => by
          have := (AssocMap.mem_range totals f v).1 hv
          rw [hget] at this
          cases this
          rfl)
      simp [index, totalOf, hget, h2]
    | null => simp [JVal.isNum] at hv
    | bool b => simp [JVal.isNum] at hv
    | str s => simp [JVal.isNum] at hv
    | arr items => simp [JVal.isNum] at hv
    | obj fields => simp [JVal.isNum] at hv

theorem overviewLoop_isSome_iff {V : Type} (totals : GoMap V) :
    (∃ metrics, overviewLoop (AssocMap.range totals) ([] : List (String × V)) = some metrics) ↔
      allNumeric totals = true := by
  constructor
  · rintro ⟨metrics, h⟩
    rw [allNumeric_iff]
    intro k v hkv
    by_contra hv
    have : overviewLoop (AssocMap.range totals) ([] : List (String × V)) = none :=
      (overviewLoop_eq_none_iff _ _).2
        ⟨(k, v), (AssocMap.mem_range totals k v).2 hkv, by simpa using hv⟩
    rw [this] at h
    cases h
  · intro h
    cases hl : overviewLoop (AssocMap.range totals) ([] : List (String × V)) with
    | some metrics => exact ⟨metrics, rfl⟩
    | none =>
      obtain ⟨e, he, hnum⟩ := (overviewLoop_eq_none_iff _ _).1 hl
      have := (allNumeric_iff totals).1 h e.1 e.2 ((AssocMap.mem_range totals e.1 e.2).1 he)
      rw [this] at hnum
      cases hnum

/-! ## The two transform steps -/

theorem getOverview_trace {V : Type} [Zero V] (hostname username password : String)
    (reply : ApiResult V) (st : PState V) :
    (getOverview hostname username password reply st).2.trace =
      st.trace ++ [Event.fetch (hostname ++ "/api/overview") username password] := by
  unfold getOverview sendApiRequest
  cases reply with
  | invalidRequest => rfl
  | transportError => rfl
  | response body =>
    simp only
    split
    · split <;> rfl
    · rfl

theorem getOverview_failure {V : Type} [Zero V] (hostname username password : String)
    (st : PState V) :
    getOverview hostname username password (ApiResult.invalidRequest : ApiResult V) st =
        (.panicked .nilDereference,
          ⟨st.store, st.trace ++ [Event.fetch (hostname ++ "/api/overview") username password]⟩) ∧
      getOverview hostname username password (ApiResult.transportError : ApiResult V) st =
        (.panicked .transport,
          ⟨st.store, st.trace ++ [Event.fetch (hostname ++ "/api/overview") username password]⟩) :=
  ⟨rfl, rfl⟩

/-- What `getOverview` does with a response, by the shape of its body. -/
theorem getOverview_response {V : Type} [Zero V] (hostname username password : String)
    (body : Body V) (st : PState V) :
    getOverview hostname username password (.response body) st =
      match AssocMap.get (decodeObj body) "object_totals" with
      | some (.obj totals) =>
        if allNumeric totals = true then
          (.returned,
            ⟨overviewStore totals (nodenameOf (decodeObj body)) st.store,
              st.trace ++ [Event.fetch (hostname ++ "/api/overview") username password]⟩)
        else
          (.panicked .typeAssertion,
            ⟨st.store, st.trace ++ [Event.fetch (hostname ++ "/api/overview") username password]⟩)
      | _ =>
        (.panicked .typeAssertion,
          ⟨st.store, st.trace ++ [Event.fetch (hostname ++ "/api/overview") username password]⟩) := by
  unfold getOverview sendApiRequest
  simp only
  split
  · rename_i totals hget
    cases hl : overviewLoop (AssocMap.range totals) ([] : List (String × V)) with
    | none =>
      have hn : ¬ allNumeric totals = true := by
        intro hall
        obtain ⟨m, hm⟩ := (overviewLoop_isSome_iff totals).2 hall
        rw [hl] at hm
        cases hm
      simp [hn]
    | some metrics =>
      have hall : allNumeric totals = true := (overviewLoop_isSome_iff totals).1 ⟨metrics, hl⟩
      simp only [hall, if_true, setGauge, overviewStore, index_overviewLoop totals metrics hl]
  · rfl

theorem getOverview_store_of_panicked {V : Type} [Zero V] (hostname username password : String)
    (reply : ApiResult V) (st : PState V) (p : Panic)
    (h : (getOverview hostname username password reply st).1 = .panicked p) :
    (getOverview hostname username password reply st).2.store = st.store := by
  cases reply with
  | invalidRequest => rfl
  | transportError => rfl
  | response body =>
    rw [getOverview_response] at h ⊢
    split at h
    · rename_i totals hget
      split at h
      · cases h
      · rename_i hn
        simp [hn]
    · rfl

theorem messagesLoop_eq {V : Type} [Add V] (l : List (GoMap V)) :
    ∀ (messages : List V) (total : V),
      List.Forall₂ (fun e x => AssocMap.get e "messages" = some (JVal.num x)) l messages →
      messagesLoop l total = some (messages.foldl (· + ·) total) := by
  induction l with
  | nil =>
    intro messages total h
    cases h
    rfl
  | cons e rest ih =>
    intro messages total h
    cases h with
    | cons hx hrest =>
      simp only [messagesLoop, hx, List.foldl_cons]
      exact ih _ _ hrest

theorem getNumberOfMessages_trace {V : Type} [Zero V] [Add V]
    (hostname username password : String) (reply : ApiResult V) (st : PState V) :
    (getNumberOfMessages hostname username password reply st).2.trace =
      st.trace ++ [Event.fetch (hostname ++ "/api/queues") username password] := by
  unfold getNumberOfMessages sendApiRequest
  cases reply with
  | invalidRequest => rfl
  | transportError => rfl
  | response body =>
    simp only
    split
    · rfl
    · split
      · split <;> rfl
      · rfl

theorem getNumberOfMessages_failure {V : Type} [Zero V] [Add V]
    (hostname username password : String) (st : PState V) :
    getNumberOfMessages hostname username password (ApiResult.invalidRequest : ApiResult V) st =
        (.panicked .nilDereference,
          ⟨st.store, st.trace ++ [Event.fetch (hostname ++ "/api/queues") username password]⟩) ∧
      getNumberOfMessages hostname username password (ApiResult.transportError : ApiResult V) st =
        (.panicked .transport,
          ⟨st.store, st.trace ++ [Event.fetch (hostname ++ "/api/queues") username password]⟩) :=
  ⟨rfl, rfl⟩

theorem getNumberOfMessages_store_of_panicked {V : Type} [Zero V] [Add V]
    (hostname username password : String) (reply : ApiResult V) (st : PState V) (p : Panic)
    (h : (getNumberOfMessages hostname username password reply st).1 = .panicked p) :
    (getNumberOfMessages hostname username password reply st).2.store = st.store := by
  revert h
  unfold getNumberOfMessages sendApiRequest
  cases reply with
  | invalidRequest => intro _; rfl
  | transportError => intro _; rfl
  | response body =>
    simp only
    split
    · intro _; rfl
    · split
      · split
        · intro _; rfl
        · intro h; cases h
      · intro _; rfl

/-- What `getNumberOfMessages` does with a non-empty array of records that all
carry a numeric `messages` field, the first one carrying a string `node`. -/
theorem getNumberOfMessages_response {V : Type} [Zero V] [Add V]
    (hostname username password : String) (body : Body V) (st : PState V)
    (first : GoMap V) (others : List (GoMap V)) (messages : List V) (L : String)
    (hbody : decodeObjArray body = first :: others)
    (hmsg : List.Forall₂ (fun e x => AssocMap.get e "messages" = some (JVal.num x))
      (first :: others) messages)
    (hnode : AssocMap.get first "node" = some (JVal.str L)) :
    getNumberOfMessages hostname username password (.response body) st =
      (.returned,
        ⟨AssocMap.set st.store (.messagesTotal, L) (messages.foldl (· + ·) 0),
          st.trace ++ [Event.fetch (hostname ++ "/api/queues") username password]⟩) := by
  unfold getNumberOfMessages sendApiRequest
  simp only [hbody, hnode, messagesLoop_eq (first :: others) messages 0 hmsg, setGauge]

/-! ## The store after the overview updates -/

theorem get_overviewStore_of_mem {V : Type} [Zero V] (totals : GoMap V) (L : String)
    (store : Store V) (g : Gauge) (f : String) (h : (g, f) ∈ overviewGauges) :
    AssocMap.get (overviewStore totals L store) (g, L) = some (totalOf totals f) := by
  simp only [overviewGauges, List.mem_cons, Prod.mk.injEq, List.mem_singleton,
    List.not_mem_nil, or_false] at h
  rcases h with ⟨rfl, rfl⟩ | ⟨rfl, rfl⟩ | ⟨rfl, rfl⟩ | ⟨rfl, rfl⟩ | ⟨rfl, rfl⟩ <;>
    simp [overviewStore, AssocMap.get_set]

theorem get_overviewStore_of_not_mem {V : Type} [Zero V] (totals : GoMap V) (L : String)
    (store : Store V) (key : Gauge × String)
    (h : ∀ p ∈ overviewGauges, key ≠ (p.1, L)) :
    AssocMap.get (overviewStore totals L store) key = AssocMap.get store key := by
  have h1 := h (.channelsTotal, "channels") (by simp [overviewGauges])
  have h2 := h (.connectionsTotal, "connections") (by simp [overviewGauges])
  have h3 := h (.consumersTotal, "consumers") (by simp [overviewGauges])
  have h4 := h (.queuesTotal, "queues") (by simp [overviewGauges])
  have h5 := h (.exchangesTotal, "exchanges") (by simp [overviewGauges])
  simp only [overviewStore]
  rw [AssocMap.get_set_of_ne _ _ _ _ (Ne.symm h5), AssocMap.get_set_of_ne _ _ _ _ (Ne.symm h4),
    AssocMap.get_set_of_ne _ _ _ _ (Ne.symm h3), AssocMap.get_set_of_ne _ _ _ _ (Ne.symm h2),
    AssocMap.get_set_of_ne _ _ _ _ (Ne.symm h1)]

theorem get_overviewStore_of_label_ne {V : Type} [Zero V] (totals : GoMap V) (L : String)
    (store : Store V) (key : Gauge × String) (h : key.2 ≠ L) :
    AssocMap.get (overviewStore totals L store) key = AssocMap.get store key := by
  apply get_overviewStore_of_not_mem
  intro p _ hkey
  exact h (by rw [hkey])

theorem get_overviewStore_messagesTotal {V : Type} [Zero V] (totals : GoMap V) (L l : String)
    (store : Store V) :
    AssocMap.get (overviewStore totals L store) (.messagesTotal, l) =
      AssocMap.get store (.messagesTotal, l) := by
  apply get_overviewStore_of_not_mem
  intro p hp hkey
  simp only [overviewGauges, List.mem_cons, List.mem_singleton, List.not_mem_nil,
    or_false] at hp
  rcases hp with rfl | rfl | rfl | rfl | rfl <;> simp at hkey

/-! ## Overview and queue-list payloads -/

/-- C1: for an overview payload that decodes to an object whose `object_totals`
is an object of numeric fields and whose top-level `node` is the string `L`,
`getOverview` returns and leaves each of the gauges channels_total,
connections_total, consumers_total, queues_total and exchanges_total at label
`L` equal to the field `channels`, `connections`, `consumers`, `queues`,
`exchanges` of `object_totals`; the resulting store is the same for every
configured node (name, URL and credentials play no part). -/
theorem getOverview_sets_object_totals {V : Type} [Zero V] (node : Node)
    (response totals : GoMap V) (L : String) (st : PState V)
    (htotals : AssocMap.get response "object_totals" = some (JVal.obj totals))
    (hnum : ∀ k v, AssocMap.get totals k = some v → v.isNum = true)
    (hnode : AssocMap.get response "node" = some (JVal.str L)) :
    (getOverview node.Url node.Uname node.Password
        (.response (some (.obj response))) st).1 = .returned ∧
    (∀ x, AssocMap.get totals "channels" = some (JVal.num x) →
      AssocMap.get (getOverview node.Url node.Uname node.Password
        (.response (some (.obj response))) st).2.store (.channelsTotal, L) = some x) ∧
    (∀ x, AssocMap.get totals "connections" = some (JVal.num x) →
      AssocMap.get (getOverview node.Url node.Uname node.Password
        (.response (some (.obj response))) st).2.store (.connectionsTotal, L) = some x) ∧
    (∀ x, AssocMap.get totals "consumers" = some (JVal.num x) →
      AssocMap.get (getOverview node.Url node.Uname node.Password
        (.response (some (.obj response))) st).2.store (.consumersTotal, L) = some x) ∧
    (∀ x, AssocMap.get totals "queues" = some (JVal.num x) →
      AssocMap.get (getOverview node.Url node.Uname node.Password
        (.response (some (.obj response))) st).2.store (.queuesTotal, L) = some x) ∧
    (∀ x, AssocMap.get totals "exchanges" = some (JVal.num x) →
      AssocMap.get (getOverview node.Url node.Uname node.Password
        (.response (some (.obj response))) st).2.store (.exchangesTotal, L) = some x) ∧
    (∀ other : Node,
      (getOverview other.Url other.Uname other.Password
        (.response (some (.obj response))) st).2.store =
      (getOverview node.Url node.Uname node.Password
        (.response (some (.obj response))) st).2.store) := by
  have hall : allNumeric totals = true := (allNumeric_iff totals).2 hnum
  have hL : nodenameOf response = L := by simp [nodenameOf, hnode]
  have hres : ∀ n : Node, getOverview n.Url n.Uname n.Password
      (.response (some (.obj response))) st =
      (.returned, ⟨overviewStore totals L st.store,
        st.trace ++ [Event.fetch (n.Url ++ "/api/overview") n.Uname n.Password]⟩) := by
    intro n
    rw [getOverview_response]
    simp only [decodeObj, htotals, hall, if_true, hL]
  have hval : ∀ (g : Gauge) (f : String), (g, f) ∈ overviewGauges → ∀ x,
      AssocMap.get totals f = some (JVal.num x) →
      AssocMap.get (overviewStore totals L st.store) (g, L) = some x := by
    intro g f hmem x hx
    rw [get_overviewStore_of_mem totals L st.store g f hmem]
    simp [totalOf, hx]
  simp only [hres]
  refine ⟨trivial, ?_, ?_, ?_, ?_, ?_, fun _ => trivial⟩
  · exact hval _ _ (by simp [overviewGauges])
  · exact hval _ _ (by simp [overviewGauges])
  · exact hval _ _ (by simp [overviewGauges])
  · exact hval _ _ (by simp [overviewGauges])
  · exact hval _ _ (by simp [overviewGauges])

/-- C2: for a queue-list payload that decodes to a non-empty array whose
elements all carry a numeric `messages` field and whose first element carries
the string `node` `L`, `getNumberOfMessages` returns, sets messages_total at
label `L` to the sum of the `messages` fields of all elements (added in array
order from zero, whatever the `node` of the other elements) and changes no
other entry of the store. -/
theorem getNumberOfMessages_sets_sum {V : Type} [Zero V] [Add V]
    (hostname username password : String) (body : Body V) (st : PState V)
    (first : GoMap V) (others : List (GoMap V)) (messages : List V) (L : String)
    (hbody : decodeObjArray body = first :: others)
    (hmsg : List.Forall₂ (fun e x => AssocMap.get e "messages" = some (JVal.num x))
      (first :: others) messages)
    (hnode : AssocMap.get first "node" = some (JVal.str L)) :
    (getNumberOfMessages hostname username password (.response body) st).1 = .returned ∧
    (getNumberOfMessages hostname username password (.response body) st).2.store =
      AssocMap.set st.store (.messagesTotal, L) (messages.foldl (· + ·) 0) ∧
    AssocMap.get (getNumberOfMessages hostname username password (.response body) st).2.store
      (.messagesTotal, L) = some (messages.foldl (· + ·) 0) ∧
    (∀ key, key ≠ (Gauge.messagesTotal, L) →
      AssocMap.get (getNumberOfMessages hostname username password (.response body) st).2.store
        key = AssocMap.get st.store key) := by
  rw [getNumberOfMessages_response hostname username password body st first others messages L
    hbody hmsg hnode]
  refine ⟨rfl, rfl, AssocMap.get_set_self _ _ _, ?_⟩
  intro key hkey
  exact AssocMap.get_set_of_ne _ _ _ _ (Ne.symm hkey)

/-- C8: on a queue-list payload that decodes to the empty array,
`getNumberOfMessages` does not complete: the read `response[0]` raises the
index-out-of-range panic, and no gauge is written. -/
theorem getNumberOfMessages_empty_array_panics {V : Type} [Zero V] [Add V]
    (hostname username password : String) (st : PState V) :
    getNumberOfMessages hostname username password
        (.response (some (JVal.arr ([] : List (JVal V))))) st =
      (.panicked .indexOutOfRange,
        ⟨st.store, st.trace ++ [Event.fetch (hostname ++ "/api/queues") username password]⟩) :=
  rfl

/-! ## One poll cycle -/

theorem requestData_of_overview_panicked {V : Type} [Zero V] [Add V]
    (parseDuration : String → Option Int) (node : Node) (overview queues : ApiResult V)
    (st : PState V) (p : Panic)
    (h : (getOverview node.Url node.Uname node.Password overview st).1 = .panicked p) :
    requestData parseDuration node overview queues st =
      (.returned, sleep (10 * second)
        (getOverview node.Url node.Uname node.Password overview st).2) := by
  unfold requestData
  rcases hov : getOverview node.Url node.Uname node.Password overview st with ⟨o, s1⟩
  rw [hov] at h
  simp only at h
  subst h
  rfl

theorem requestData_of_queues_panicked {V : Type} [Zero V] [Add V]
    (parseDuration : String → Option Int) (node : Node) (overview queues : ApiResult V)
    (st : PState V) (p : Panic)
    (hov : (getOverview node.Url node.Uname node.Password overview st).1 = .returned)
    (h : (getNumberOfMessages node.Url node.Uname node.Password queues
      (getOverview node.Url node.Uname node.Password overview st).2).1 = .panicked p) :
    requestData parseDuration node overview queues st =
      (.returned, sleep (10 * second)
        (getNumberOfMessages node.Url node.Uname node.Password queues
          (getOverview node.Url node.Uname node.Password overview st).2).2) := by
  unfold requestData
  rcases hov1 : getOverview node.Url node.Uname node.Password overview st with ⟨o, s1⟩
  rw [hov1] at hov h
  simp only at hov h
  subst hov
  rcases hqs : getNumberOfMessages node.Url node.Uname node.Password queues s1 with ⟨o2, s2⟩
  rw [hqs] at h
  simp only at h
  subst h
  simp only [hqs]

theorem requestData_of_success {V : Type} [Zero V] [Add V]
    (parseDuration : String → Option Int) (node : Node) (overview queues : ApiResult V)
    (st : PState V)
    (hov : (getOverview node.Url node.Uname node.Password overview st).1 = .returned)
    (h : (getNumberOfMessages node.Url node.Uname node.Password queues
      (getOverview node.Url node.Uname node.Password overview st).2).1 = .returned) :
    requestData parseDuration node overview queues st =
      (.returned, sleep (match parseDuration node.Interval with
          | some d => d
          | none => 30 * second)
        (getNumberOfMessages node.Url node.Uname node.Password queues
          (getOverview node.Url node.Uname node.Password overview st).2).2) := by
  unfold requestData
  rcases hov1 : getOverview node.Url node.Uname node.Password overview st with ⟨o, s1⟩
  rw [hov1] at hov h
  simp only at hov h
  subst hov
  rcases hqs : getNumberOfMessages node.Url node.Uname node.Password queues s1 with ⟨o2, s2⟩
  rw [hqs] at h
  simp only at h
  subst h
  simp only [hqs]

theorem outcome_cases (o : Outcome) : o = .returned ∨ ∃ p, o = .panicked p := by
  cases o with
  | returned => exact Or.inl rfl
  | panicked p => exact Or.inr ⟨p, rfl⟩

theorem requestData_returned {V : Type} [Zero V] [Add V]
    (parseDuration : String → Option Int) (node : Node) (overview queues : ApiResult V)
    (st : PState V) : (requestData parseDuration node overview queues st).1 = .returned := by
  rcases outcome_cases (getOverview node.Url node.Uname node.Password overview st).1 with
    hov | ⟨p, hov⟩
  · rcases outcome_cases (getNumberOfMessages node.Url node.Uname node.Password queues
      (getOverview node.Url node.Uname node.Password overview st).2).1 with hqs | ⟨p, hqs⟩
    · rw [requestData_of_success parseDuration node overview queues st hov hqs]
    · rw [requestData_of_queues_panicked parseDuration node overview queues st p hov hqs]
  · rw [requestData_of_overview_panicked parseDuration node overview queues st p hov]

/-- Every cycle begins with the overview GET. -/
theorem requestData_trace_head {V : Type} [Zero V] [Add V]
    (parseDuration : String → Option Int) (node : Node) (overview queues : ApiResult V)
    (st : PState V) :
    ∃ rest, (requestData parseDuration node overview queues st).2.trace =
      st.trace ++ Event.fetch (node.Url ++ "/api/overview") node.Uname node.Password :: rest := by
  rcases outcome_cases (getOverview node.Url node.Uname node.Password overview st).1 with
    hov | ⟨p, hov⟩
  · rcases outcome_cases (getNumberOfMessages node.Url node.Uname node.Password queues
      (getOverview node.Url node.Uname node.Password overview st).2).1 with hqs | ⟨p, hqs⟩
    · rw [requestData_of_success parseDuration node overview queues st hov hqs]
      simp only [sleep, getNumberOfMessages_trace, getOverview_trace, List.append_assoc,
        List.singleton_append]
      exact ⟨_, rfl⟩
    · rw [requestData_of_queues_panicked parseDuration node overview queues st p hov hqs]
      simp only [sleep, getNumberOfMessages_trace, getOverview_trace, List.append_assoc,
        List.singleton_append]
      exact ⟨_, rfl⟩
  · rw [requestData_of_overview_panicked parseDuration node overview queues st p hov]
    simp only [sleep, getOverview_trace, List.append_assoc, List.singleton_append]
    exact ⟨_, rfl⟩

theorem runRequestLoop_trace {V : Type} [Zero V] [Add V]
    (parseDuration : String → Option Int) (node : Node)
    (broker : Nat → ApiResult V × ApiResult V) (cycles : Nat) :
    ∀ (k : Nat) (st : PState V),
      ∃ rest, (runRequestLoop parseDuration node broker cycles k st).2.trace =
        st.trace ++ rest := by
  induction cycles with
  | zero => intro k st; exact ⟨[], by simp [runRequestLoop]⟩
  | succ n ih =>
    intro k st
    have hret := requestData_returned parseDuration node (broker k).1 (broker k).2 st
    obtain ⟨r1, h1⟩ := requestData_trace_head parseDuration node (broker k).1 (broker k).2 st
    rcases hrd : requestData parseDuration node (broker k).1 (broker k).2 st with ⟨o, s1⟩
    rw [hrd] at hret h1
    simp only at hret h1
    subst hret
    obtain ⟨r2, h2⟩ := ih (k + 1) s1
    refine ⟨Event.fetch (node.Url ++ "/api/overview") node.Uname node.Password :: r1 ++ r2, ?_⟩
    simp only [runRequestLoop, hrd, h2, h1, List.append_assoc]

/-- The loop never ends by a panic, and after a cycle it starts the next one
with the overview GET. -/
theorem runRequestLoop_next_cycle {V : Type} [Zero V] [Add V]
    (parseDuration : String → Option Int) (node : Node)
    (broker : Nat → ApiResult V × ApiResult V) (cycles k : Nat) (st : PState V) :
    ∃ rest, (runRequestLoop parseDuration node broker (cycles + 2) k st).2.trace =
      (requestData parseDuration node (broker k).1 (broker k).2 st).2.trace ++
        Event.fetch (node.Url ++ "/api/overview") node.Uname node.Password :: rest := by
  have hret := requestData_returned parseDuration node (broker k).1 (broker k).2 st
  rcases hrd : requestData parseDuration node (broker k).1 (broker k).2 st with ⟨o, s1⟩
  rw [hrd] at hret
  simp only at hret
  subst hret
  have hret2 := requestData_returned parseDuration node (broker (k + 1)).1 (broker (k + 1)).2 s1
  obtain ⟨r1, h1⟩ :=
    requestData_trace_head parseDuration node (broker (k + 1)).1 (broker (k + 1)).2 s1
  rcases hrd2 : requestData parseDuration node (broker (k + 1)).1 (broker (k + 1)).2 s1 with
    ⟨o2, s2⟩
  rw [hrd2] at hret2 h1
  simp only at hret2 h1
  subst hret2
  obtain ⟨r2, h2⟩ := runRequestLoop_trace parseDuration node broker cycles (k + 1 + 1) s2
  refine ⟨r1 ++ r2, ?_⟩
  simp only [runRequestLoop, hrd, hrd2, h2, h1, List.append_assoc, List.cons_append]

theorem runRequestLoop_running {V : Type} [Zero V] [Add V]
    (parseDuration : String → Option Int) (node : Node)
    (broker : Nat → ApiResult V × ApiResult V) (cycles : Nat) :
    ∀ (k : Nat) (st : PState V),
      (runRequestLoop parseDuration node broker cycles k st).1 = none := by
  induction cycles with
  | zero => intro k st; rfl
  | succ n ih =>
    intro k st
    have hret := requestData_returned parseDuration node (broker k).1 (broker k).2 st
    rcases hrd : requestData parseDuration node (broker k).1 (broker k).2 st with ⟨o, s1⟩
    rw [hrd] at hret
    simp only at hret
    subst hret
    simp only [runRequestLoop, hrd, ih]

theorem getOverview_store_frame {V : Type} [Zero V] (hostname username password : String)
    (body : Body V) (st : PState V) (key : Gauge × String)
    (hkey : ∀ q ∈ overviewGauges, key ≠ (q.1, nodenameOf (decodeObj body))) :
    AssocMap.get (getOverview hostname username password (.response body) st).2.store key =
      AssocMap.get st.store key := by
  rw [getOverview_response]
  split
  · split
    · exact get_overviewStore_of_not_mem _ _ _ _ hkey
    · rfl
  · rfl

theorem requestData_store_of_overview_panicked {V : Type} [Zero V] [Add V]
    (parseDuration : String → Option Int) (node : Node) (overview queues : ApiResult V)
    (st : PState V) (p : Panic)
    (h : (getOverview node.Url node.Uname node.Password overview st).1 = .panicked p) :
    (requestData parseDuration node overview queues st).2.store = st.store := by
  rw [requestData_of_overview_panicked parseDuration node overview queues st p h]
  exact getOverview_store_of_panicked _ _ _ _ _ p h

theorem requestData_store_of_queues_panicked {V : Type} [Zero V] [Add V]
    (parseDuration : String → Option Int) (node : Node) (overview queues : ApiResult V)
    (st : PState V) (p : Panic)
    (h : (getNumberOfMessages node.Url node.Uname node.Password queues
      (getOverview node.Url node.Uname node.Password overview st).2).1 = .panicked p) :
    (requestData parseDuration node overview queues st).2.store =
      (getOverview node.Url node.Uname node.Password overview st).2.store := by
  rcases outcome_cases (getOverview node.Url node.Uname node.Password overview st).1 with
    hov | ⟨q, hov⟩
  · rw [requestData_of_queues_panicked parseDuration node overview queues st p hov h]
    exact getNumberOfMessages_store_of_panicked _ _ _ _ _ p h
  · rw [requestData_of_overview_panicked parseDuration node overview queues st q hov]
    rfl

/-- C3: when the overview step or the queue-list step of a cycle panics,
`requestData` returns normally and its effects are the GETs made so far
followed by exactly one sleep, of 10 seconds; the result is the same for every
Interval string and every duration parser; and `runRequestLoop` keeps running
and begins its next iteration with the overview GET. -/
theorem requestData_backoff {V : Type} [Zero V] [Add V]
    (parseDuration : String → Option Int) (node : Node) (overview queues : ApiResult V)
    (st : PState V)
    (hfail : (∃ p, (getOverview node.Url node.Uname node.Password overview st).1 =
        .panicked p) ∨
      (∃ p, (getNumberOfMessages node.Url node.Uname node.Password queues
        (getOverview node.Url node.Uname node.Password overview st).2).1 = .panicked p)) :
    (requestData parseDuration node overview queues st).1 = .returned ∧
    ((requestData parseDuration node overview queues st).2.trace =
        st.trace ++ [Event.fetch (node.Url ++ "/api/overview") node.Uname node.Password,
          Event.sleep (10 * second)] ∨
      (requestData parseDuration node overview queues st).2.trace =
        st.trace ++ [Event.fetch (node.Url ++ "/api/overview") node.Uname node.Password,
          Event.fetch (node.Url ++ "/api/queues") node.Uname node.Password,
          Event.sleep (10 * second)]) ∧
    (∀ (interval : String) (parser : String → Option Int),
      requestData parser { node with Interval := interval } overview queues st =
        requestData parseDuration node overview queues st) ∧
    (∀ (broker : Nat → ApiResult V × ApiResult V) (cycles k : Nat),
      broker k = (overview, queues) →
      (runRequestLoop parseDuration node broker (cycles + 2) k st).1 = none ∧
      ∃ rest, (runRequestLoop parseDuration node broker (cycles + 2) k st).2.trace =
        (requestData parseDuration node overview queues st).2.trace ++
          Event.fetch (node.Url ++ "/api/overview") node.Uname node.Password :: rest) := by
  refine ⟨requestData_returned _ _ _ _ _, ?_, ?_, ?_⟩
  · rcases outcome_cases (getOverview node.Url node.Uname node.Password overview st).1 with
      hov | ⟨p, hov⟩
    · rcases hfail with ⟨p, hp⟩ | ⟨p, hp⟩
      · rw [hov] at hp
        cases hp
      · right
        rw [requestData_of_queues_panicked parseDuration node overview queues st p hov hp]
        simp [sleep, getNumberOfMessages_trace, getOverview_trace]
    · left
      rw [requestData_of_overview_panicked parseDuration node overview queues st p hov]
      simp [sleep, getOverview_trace]
  · intro interval parser
    rcases outcome_cases (getOverview node.Url node.Uname node.Password overview st).1 with
      hov | ⟨p, hov⟩
    · rcases hfail with ⟨p, hp⟩ | ⟨p, hp⟩
      · rw [hov] at hp
        cases hp
      · rw [requestData_of_queues_panicked parseDuration node overview queues st p hov hp]
        exact requestData_of_queues_panicked parser { node with Interval := interval }
          overview queues st p hov hp
    · rw [requestData_of_overview_panicked parseDuration node overview queues st p hov]
      exact requestData_of_overview_panicked parser { node with Interval := interval }
        overview queues st p hov
  · intro broker cycles k hk
    refine ⟨runRequestLoop_running _ _ _ _ _ _, ?_⟩
    have h := runRequestLoop_next_cycle parseDuration node broker cycles k st
    rw [hk] at h
    exact h

/-- C5: after a cycle in which both steps return, `requestData` returns and its
effects are the two GETs followed by exactly one sleep, for the duration
`time.ParseDuration` gives for the node's Interval, or for 30 seconds when
`time.ParseDuration` reports an error; so with the library results
`ParseDuration("45s") = 45s`, `ParseDuration("abc") = error` and
`ParseDuration("") = error`, the intervals "45s", "abc" and "" give sleeps of
45, 30 and 30 seconds. -/
theorem requestData_success_sleep {V : Type} [Zero V] [Add V]
    (parseDuration : String → Option Int) (node : Node) (overview queues : ApiResult V)
    (st : PState V)
    (hov : (getOverview node.Url node.Uname node.Password overview st).1 = .returned)
    (hqs : (getNumberOfMessages node.Url node.Uname node.Password queues
      (getOverview node.Url node.Uname node.Password overview st).2).1 = .returned) :
    (requestData parseDuration node overview queues st).1 = .returned ∧
    (∀ d, parseDuration node.Interval = some d →
      (requestData parseDuration node overview queues st).2.trace =
        st.trace ++ [Event.fetch (node.Url ++ "/api/overview") node.Uname node.Password,
          Event.fetch (node.Url ++ "/api/queues") node.Uname node.Password,
          Event.sleep d]) ∧
    (parseDuration node.Interval = none →
      (requestData parseDuration node overview queues st).2.trace =
        st.trace ++ [Event.fetch (node.Url ++ "/api/overview") node.Uname node.Password,
          Event.fetch (node.Url ++ "/api/queues") node.Uname node.Password,
          Event.sleep (30 * second)]) ∧
    (node.Interval = "45s" → parseDuration "45s" = some (45 * second) →
      (requestData parseDuration node overview queues st).2.trace =
        st.trace ++ [Event.fetch (node.Url ++ "/api/overview") node.Uname node.Password,
          Event.fetch (node.Url ++ "/api/queues") node.Uname node.Password,
          Event.sleep (45 * second)]) ∧
    (node.Interval = "abc" → parseDuration "abc" = none →
      (requestData parseDuration node overview queues st).2.trace =
        st.trace ++ [Event.fetch (node.Url ++ "/api/overview") node.Uname node.Password,
          Event.fetch (node.Url ++ "/api/queues") node.Uname node.Password,
          Event.sleep (30 * second)]) ∧
    (node.Interval = "" → parseDuration "" = none →
      (requestData parseDuration node overview queues st).2.trace =
        st.trace ++ [Event.fetch (node.Url ++ "/api/overview") node.Uname node.Password,
          Event.fetch (node.Url ++ "/api/queues") node.Uname node.Password,
          Event.sleep (30 * second)]) := by
  have hsome : ∀ d, parseDuration node.Interval = some d →
      (requestData parseDuration node overview queues st).2.trace =
        st.trace ++ [Event.fetch (node.Url ++ "/api/overview") node.Uname node.Password,
          Event.fetch (node.Url ++ "/api/queues") node.Uname node.Password,
          Event.sleep d] := by
    intro d hd
    rw [requestData_of_success parseDuration node overview queues st hov hqs]
    simp [sleep, getNumberOfMessages_trace, getOverview_trace, hd]
  have hnone : parseDuration node.Interval = none →
      (requestData parseDuration node overview queues st).2.trace =
        st.trace ++ [Event.fetch (node.Url ++ "/api/overview") node.Uname node.Password,
          Event.fetch (node.Url ++ "/api/queues") node.Uname node.Password,
          Event.sleep (30 * second)] := by
    intro hd
    rw [requestData_of_success parseDuration node overview queues st hov hqs]
    simp [sleep, getNumberOfMessages_trace, getOverview_trace, hd]
  refine ⟨requestData_returned _ _ _ _ _, hsome, hnone, ?_, ?_, ?_⟩
  · intro hi hp
    exact hsome _ (by rw [hi]; exact hp)
  · intro hi hp
    exact hnone (by rw [hi]; exact hp)
  · intro hi hp
    exact hnone (by rw [hi]; exact hp)

/-- C4, amended: a cycle whose overview request suffers a transport failure
leaves the metric store as it was.  A cycle whose queue-list request suffers a
transport failure leaves the store as the overview step left it: no
messages_total entry is changed, and the only entries that can differ from
the store before the cycle are the five overview gauges at the label of the
overview payload. -/
theorem requestData_transport_failure_store {V : Type} [Zero V] [Add V]
    (parseDuration : String → Option Int) (node : Node) (overview queues : ApiResult V)
    (st : PState V) :
    (overview = .transportError →
      (requestData parseDuration node overview queues st).2.store = st.store) ∧
    (queues = .transportError →
      (requestData parseDuration node overview queues st).2.store =
        (getOverview node.Url node.Uname node.Password overview st).2.store ∧
      (∀ l, AssocMap.get (requestData parseDuration node overview queues st).2.store
        (.messagesTotal, l) = AssocMap.get st.store (.messagesTotal, l)) ∧
      (∀ body, overview = .response body →
        ∀ key, (∀ q ∈ overviewGauges, key ≠ (q.1, nodenameOf (decodeObj body))) →
          AssocMap.get (requestData parseDuration node overview queues st).2.store key =
            AssocMap.get st.store key)) := by
  constructor
  · intro h
    subst h
    exact requestData_store_of_overview_panicked parseDuration node _ queues st .transport rfl
  · intro h
    subst h
    have hst : (requestData parseDuration node overview .transportError st).2.store =
        (getOverview node.Url node.Uname node.Password overview st).2.store :=
      requestData_store_of_queues_panicked parseDuration node overview _ st .transport rfl
    have hframe : ∀ body, overview = .response body →
        ∀ key, (∀ q ∈ overviewGauges, key ≠ (q.1, nodenameOf (decodeObj body))) →
          AssocMap.get (requestData parseDuration node overview .transportError st).2.store key =
            AssocMap.get st.store key := by
      intro body hb key hkey
      rw [hst, hb]
      exact getOverview_store_frame _ _ _ body st key hkey
    refine ⟨hst, ?_, hframe⟩
    intro l
    cases overview with
    | invalidRequest => rw [hst]; rfl
    | transportError => rw [hst]; rfl
    | response body =>
      apply hframe body rfl
      intro q hq hkey
      simp only [overviewGauges, List.mem_cons, List.mem_singleton, List.not_mem_nil,
        or_false] at hq
      rcases hq with rfl | rfl | rfl | rfl | rfl <;> simp at hkey

/-- C10: each transform step writes nothing when it fails, but the cycle is not
all-or-nothing.  If `getOverview` panics the store is unchanged; if
`getNumberOfMessages` panics it has written nothing; and if `getOverview`
returns for a payload with label `L` and `getNumberOfMessages` then panics, the
store after the cycle holds the payload's values in the five overview gauges
at `L`, agrees with the store before the cycle at every other entry, and in
particular at every messages_total entry. -/
theorem cycle_writes_by_step {V : Type} [Zero V] [Add V]
    (parseDuration : String → Option Int) (node : Node) (overview queues : ApiResult V)
    (st : PState V) :
    (∀ p, (getOverview node.Url node.Uname node.Password overview st).1 = .panicked p →
      (getOverview node.Url node.Uname node.Password overview st).2.store = st.store ∧
      (requestData parseDuration node overview queues st).2.store = st.store) ∧
    (∀ (s : PState V) (p : Panic),
      (getNumberOfMessages node.Url node.Uname node.Password queues s).1 = .panicked p →
      (getNumberOfMessages node.Url node.Uname node.Password queues s).2.store = s.store) ∧
    (∀ (body : Body V) (totals : GoMap V) (p : Panic),
      overview = .response body →
      AssocMap.get (decodeObj body) "object_totals" = some (JVal.obj totals) →
      (getOverview node.Url node.Uname node.Password overview st).1 = .returned →
      (getNumberOfMessages node.Url node.Uname node.Password queues
        (getOverview node.Url node.Uname node.Password overview st).2).1 = .panicked p →
      (∀ g f, (g, f) ∈ overviewGauges →
        AssocMap.get (requestData parseDuration node overview queues st).2.store
          (g, nodenameOf (decodeObj body)) = some (totalOf totals f)) ∧
      (∀ key, (∀ q ∈ overviewGauges, key ≠ (q.1, nodenameOf (decodeObj body))) →
        AssocMap.get (requestData parseDuration node overview queues st).2.store key =
          AssocMap.get st.store key) ∧
      (∀ l, AssocMap.get (requestData parseDuration node overview queues st).2.store
        (.messagesTotal, l) = AssocMap.get st.store (.messagesTotal, l))) := by
  refine ⟨?_, ?_, ?_⟩
  · intro p hp
    exact ⟨getOverview_store_of_panicked _ _ _ _ _ p hp,
      requestData_store_of_overview_panicked parseDuration node overview queues st p hp⟩
  · intro s p hp
    exact getNumberOfMessages_store_of_panicked _ _ _ _ _ p hp
  · intro body totals p hb htotals hov hqs
    have hst := requestData_store_of_queues_panicked parseDuration node overview queues st p hqs
    subst hb
    have hframe : ∀ key, (∀ q ∈ overviewGauges, key ≠ (q.1, nodenameOf (decodeObj body))) →
        AssocMap.get (requestData parseDuration node (.response body) queues st).2.store key =
          AssocMap.get st.store key := by
      intro key hkey
      rw [hst]
      exact getOverview_store_frame _ _ _ body st key hkey
    refine ⟨?_, hframe, ?_⟩
    · intro g f hmem
      rw [hst]
      rw [getOverview_response] at hov ⊢
      simp only [htotals] at hov ⊢
      split at hov
      · rename_i hall
        simp only [hall, if_true]
        exact get_overviewStore_of_mem totals _ st.store g f hmem
      · cases hov
    · intro l
      apply hframe
      intro q hq hkey
      simp only [overviewGauges, List.mem_cons, List.mem_singleton, List.not_mem_nil,
        or_false] at hq
      rcases hq with rfl | rfl | rfl | rfl | rfl <;> simp at hkey

/-- C9, amended: an overview payload without an `object_totals` object, or
whose `object_totals` has a non-numeric field, makes `getOverview` panic with
nothing written.  When `object_totals` is an object of numeric fields,
`getOverview` returns: each of the five gauges is set to its field of
`object_totals`, or to zero when that field is absent, at the label given by
the top-level `node`, or at the empty label when `node` is absent or not a
string. -/
theorem getOverview_missing_or_mistyped {V : Type} [Zero V]
    (hostname username password : String) (body : Body V) (st : PState V) :
    ((∀ totals, AssocMap.get (decodeObj body) "object_totals" ≠ some (JVal.obj totals)) →
      (getOverview hostname username password (.response body) st).1 =
        .panicked .typeAssertion ∧
      (getOverview hostname username password (.response body) st).2.store = st.store) ∧
    (∀ totals, AssocMap.get (decodeObj body) "object_totals" = some (JVal.obj totals) →
      (∃ k v, AssocMap.get totals k = some v ∧ v.isNum = false) →
      (getOverview hostname username password (.response body) st).1 =
        .panicked .typeAssertion ∧
      (getOverview hostname username password (.response body) st).2.store = st.store) ∧
    (∀ totals, AssocMap.get (decodeObj body) "object_totals" = some (JVal.obj totals) →
      (∀ k v, AssocMap.get totals k = some v → v.isNum = true) →
      (getOverview hostname username password (.response body) st).1 = .returned ∧
      ∀ L, (AssocMap.get (decodeObj body) "node" = some (JVal.str L) ∨
          ((∀ s, AssocMap.get (decodeObj body) "node" ≠ some (JVal.str s)) ∧ L = "")) →
        ∀ g f, (g, f) ∈ overviewGauges →
          (∀ x, AssocMap.get totals f = some (JVal.num x) →
            AssocMap.get (getOverview hostname username password (.response body) st).2.store
              (g, L) = some x) ∧
          (AssocMap.get totals f = none →
            AssocMap.get (getOverview hostname username password (.response body) st).2.store
              (g, L) = some 0)) := by
  refine ⟨?_, ?_, ?_⟩
  · intro hno
    rw [getOverview_response]
    split
    · rename_i totals hget
      exact absurd hget (hno totals)
    · exact ⟨rfl, rfl⟩
  · intro totals htotals hbad
    have hn : ¬ allNumeric totals = true := by
      intro hall
      obtain ⟨k, v, hkv, hv⟩ := hbad
      have := (allNumeric_iff totals).1 hall k v hkv
      rw [this] at hv
      cases hv
    rw [getOverview_response]
    simp [htotals, hn]
  · intro totals htotals hnum
    have hall : allNumeric totals = true := (allNumeric_iff totals).2 hnum
    rw [getOverview_response]
    simp only [htotals, hall, if_true]
    refine ⟨trivial, ?_⟩
    intro L hL g f hmem
    have hlabel : nodenameOf (decodeObj body) = L := by
      rcases hL with h | ⟨h, rfl⟩
      · simp [nodenameOf, h]
      · unfold nodenameOf
        split
        · rename_i s hs
          exact absurd hs (h s)
        · rfl
    rw [hlabel, get_overviewStore_of_mem totals L st.store g f hmem]
    constructor
    · intro x hx
      simp [totalOf, hx]
    · intro hx
      simp [totalOf, hx]

/-! ## Launching the pollers -/

theorem utf8ByteSize_eq_zero_iff (s : String) : s.utf8ByteSize = 0 ↔ s = "" := by
  obtain ⟨l⟩ := s
  cases l with
  | nil => exact ⟨fun _ => rfl, fun _ => rfl⟩
  | cons c cs =>
    constructor
    · intro h
      have hpos := c.utf8Size_pos
      simp only [String.utf8ByteSize, String.utf8ByteSize.go] at h
      omega
    · intro h
      have := congrArg String.data h
      simp at this

theorem launchLoop_eq (globalInterval : String) (nodes : List Node) :
    ∀ launched : List Node,
      launchLoop globalInterval nodes launched =
        launched ++ nodes.map (fun n =>
          if n.Interval = "" then { n with Interval := globalInterval } else n) := by
  induction nodes with
  | nil => intro launched; simp [launchLoop]
  | cons n rest ih =>
    intro launched
    simp only [launchLoop, ih, utf8ByteSize_eq_zero_iff, List.map_cons, List.append_assoc,
      List.singleton_append]

/-- C6: `updateNodesStats` launches one `runRequestLoop` per node of the
configuration, in list order; the node each receives has the Name, Url, Uname
and Password of the configured node, and its Interval when that is non-empty,
the global Interval otherwise; the configuration is left as it was; and with a
non-nil node list the call returns. -/
theorem updateNodesStats_launches (config : Config) :
    (updateNodesStats config).2.2.length = (config.Nodes.getD []).length ∧
    List.Forall₂
      (fun (n l : Node) =>
        l.Name = n.Name ∧ l.Url = n.Url ∧ l.Uname = n.Uname ∧ l.Password = n.Password ∧
        l.Interval = if n.Interval = "" then config.Interval else n.Interval)
      (config.Nodes.getD []) (updateNodesStats config).2.2 ∧
    (updateNodesStats config).2.1 = config ∧
    (∀ nodes, config.Nodes = some nodes → (updateNodesStats config).1 = .returned) := by
  have hrel : ∀ nodes : List Node, List.Forall₂
      (fun (n l : Node) =>
        l.Name = n.Name ∧ l.Url = n.Url ∧ l.Uname = n.Uname ∧ l.Password = n.Password ∧
        l.Interval = if n.Interval = "" then config.Interval else n.Interval)
      nodes (nodes.map (fun n =>
          if n.Interval = "" then { n with Interval := config.Interval } else n)) := by
    intro nodes
    induction nodes with
    | nil => exact List.Forall₂.nil
    | cons n rest ih =>
      refine List.Forall₂.cons ?_ ih
      by_cases h : n.Interval = "" <;> simp [h]
  cases hn : config.Nodes with
  | none =>
    simp only [updateNodesStats, hn, Option.getD_none, List.length_nil, true_and]
    exact ⟨List.Forall₂.nil, fun nodes h => by cases h⟩
  | some nodes =>
    simp only [updateNodesStats, hn, Option.getD_some, launchLoop_eq, List.nil_append,
      List.length_map, true_and]
    exact ⟨hrel nodes, fun _ _ => trivial⟩

/-! ## Two nodes -/

theorem requestData_success_store {V : Type} [Zero V] [Add V]
    (parseDuration : String → Option Int) (node : Node)
    (response totals : GoMap V) (queues : Body V) (first : GoMap V) (others : List (GoMap V))
    (messages : List V) (L : String) (st : PState V)
    (htotals : AssocMap.get response "object_totals" = some (JVal.obj totals))
    (hnum : ∀ k v, AssocMap.get totals k = some v → v.isNum = true)
    (hnode : AssocMap.get response "node" = some (JVal.str L))
    (hbody : decodeObjArray queues = first :: others)
    (hmsg : List.Forall₂ (fun e x => AssocMap.get e "messages" = some (JVal.num x))
      (first :: others) messages)
    (hfirst : AssocMap.get first "node" = some (JVal.str L)) :
    (requestData parseDuration node (.response (some (.obj response))) (.response queues)
        st).2.store =
      AssocMap.set (overviewStore totals L st.store) (.messagesTotal, L)
        (messages.foldl (· + ·) 0) := by
  have hall : allNumeric totals = true := (allNumeric_iff totals).2 hnum
  have hL : nodenameOf response = L := by simp [nodenameOf, hnode]
  have hov : getOverview node.Url node.Uname node.Password
      (.response (some (.obj response))) st =
      (.returned, ⟨overviewStore totals L st.store,
        st.trace ++ [Event.fetch (node.Url ++ "/api/overview") node.Uname node.Password]⟩) := by
    rw [getOverview_response]
    simp only [decodeObj, htotals, hall, if_true, hL]
  have hqs := getNumberOfMessages_response node.Url node.Uname node.Password queues
    (getOverview node.Url node.Uname node.Password (.response (some (.obj response))) st).2
    first others messages L hbody hmsg hfirst
  rw [requestData_of_success parseDuration node _ _ st (by rw [hov]) (by rw [hqs])]
  rw [hqs, hov]
  rfl

/-- The store two successful cycles build from the empty store, the cycle
labelled `A` first. -/
theorem two_cycles_store {V : Type} [Zero V] (totalsA totalsB : GoMap V) (A B : String)
    (sumA sumB : V) (hAB : A ≠ B) :
    AssocMap.set (overviewStore totalsB B
        (AssocMap.set (overviewStore totalsA A ([] : Store V)) (.messagesTotal, A) sumA))
        (.messagesTotal, B) sumB =
      [((.channelsTotal, A), totalOf totalsA "channels"),
       ((.connectionsTotal, A), totalOf totalsA "connections"),
       ((.consumersTotal, A), totalOf totalsA "consumers"),
       ((.queuesTotal, A), totalOf totalsA "queues"),
       ((.exchangesTotal, A), totalOf totalsA "exchanges"),
       ((.messagesTotal, A), sumA),
       ((.channelsTotal, B), totalOf totalsB "channels"),
       ((.connectionsTotal, B), totalOf totalsB "connections"),
       ((.consumersTotal, B), totalOf totalsB "consumers"),
       ((.queuesTotal, B), totalOf totalsB "queues"),
       ((.exchangesTotal, B), totalOf totalsB "exchanges"),
       ((.messagesTotal, B), sumB)] := by
  simp [overviewStore, AssocMap.set, hAB]

theorem two_cycles_isSome {V : Type} [Zero V] (totalsA totalsB : GoMap V) (A B : String)
    (sumA sumB : V) (hAB : A ≠ B) (key : Gauge × String) :
    (AssocMap.get (AssocMap.set (overviewStore totalsB B
        (AssocMap.set (overviewStore totalsA A ([] : Store V)) (.messagesTotal, A) sumA))
        (.messagesTotal, B) sumB) key).isSome = true ↔ (key.2 = A ∨ key.2 = B) := by
  rw [two_cycles_store totalsA totalsB A B sumA sumB hAB]
  obtain ⟨g, l⟩ := key
  by_cases hA : A = l
  · subst hA
    cases g <;> simp [AssocMap.get]
  · by_cases hB : B = l
    · subst hB
      cases g <;> simp [AssocMap.get, hA]
    · have hA1 : ¬ l = A := fun h => hA h.symm
      have hB1 : ¬ l = B := fun h => hB h.symm
      cases g <;> simp [AssocMap.get, hA, hB, hA1, hB1]

theorem two_cycles_values {V : Type} [Zero V] (totalsA totalsB : GoMap V) (A B : String)
    (sumA sumB : V) (hAB : A ≠ B) :
    (∀ g f, (g, f) ∈ overviewGauges →
      AssocMap.get (AssocMap.set (overviewStore totalsB B
        (AssocMap.set (overviewStore totalsA A ([] : Store V)) (.messagesTotal, A) sumA))
        (.messagesTotal, B) sumB) (g, A) = some (totalOf totalsA f) ∧
      AssocMap.get (AssocMap.set (overviewStore totalsB B
        (AssocMap.set (overviewStore totalsA A ([] : Store V)) (.messagesTotal, A) sumA))
        (.messagesTotal, B) sumB) (g, B) = some (totalOf totalsB f)) ∧
    AssocMap.get (AssocMap.set (overviewStore totalsB B
        (AssocMap.set (overviewStore totalsA A ([] : Store V)) (.messagesTotal, A) sumA))
        (.messagesTotal, B) sumB) (.messagesTotal, A) = some sumA ∧
    AssocMap.get (AssocMap.set (overviewStore totalsB B
        (AssocMap.set (overviewStore totalsA A ([] : Store V)) (.messagesTotal, A) sumA))
        (.messagesTotal, B) sumB) (.messagesTotal, B) = some sumB := by
  rw [two_cycles_store totalsA totalsB A B sumA sumB hAB]
  refine ⟨?_, ?_, ?_⟩
  · intro g f hmem
    simp only [overviewGauges, List.mem_cons, Prod.mk.injEq, List.mem_singleton,
      List.not_mem_nil, or_false] at hmem
    rcases hmem with ⟨rfl, rfl⟩ | ⟨rfl, rfl⟩ | ⟨rfl, rfl⟩ | ⟨rfl, rfl⟩ | ⟨rfl, rfl⟩ <;>
      simp [AssocMap.get, hAB]
  · simp [AssocMap.get]
  · simp [AssocMap.get, hAB]

/-- C7: from the empty store, one successful cycle for each of two nodes
whose payloads report the distinct labels `A` and `B`, in either order, leaves
a store of exactly 12 entries, the six gauges at `A` and the six at `B`; each
overview gauge holds the field of its own node's `object_totals` and each
messages_total the sum of its own node's `messages`; and a successful cycle
reporting one label changes no entry at any other label. -/
theorem two_nodes_twelve_entries {V : Type} [Zero V] [Add V]
    (parseDuration : String → Option Int) (nodeA nodeB : Node) (trace : List Event)
    (responseA totalsA : GoMap V) (queuesA : Body V) (firstA : GoMap V)
    (othersA : List (GoMap V)) (messagesA : List V) (A : String)
    (responseB totalsB : GoMap V) (queuesB : Body V) (firstB : GoMap V)
    (othersB : List (GoMap V)) (messagesB : List V) (B : String)
    (hA1 : AssocMap.get responseA "object_totals" = some (JVal.obj totalsA))
    (hA2 : ∀ k v, AssocMap.get totalsA k = some v → v.isNum = true)
    (hA3 : AssocMap.get responseA "node" = some (JVal.str A))
    (hA4 : decodeObjArray queuesA = firstA :: othersA)
    (hA5 : List.Forall₂ (fun e x => AssocMap.get e "messages" = some (JVal.num x))
      (firstA :: othersA) messagesA)
    (hA6 : AssocMap.get firstA "node" = some (JVal.str A))
    (hB1 : AssocMap.get responseB "object_totals" = some (JVal.obj totalsB))
    (hB2 : ∀ k v, AssocMap.get totalsB k = some v → v.isNum = true)
    (hB3 : AssocMap.get responseB "node" = some (JVal.str B))
    (hB4 : decodeObjArray queuesB = firstB :: othersB)
    (hB5 : List.Forall₂ (fun e x => AssocMap.get e "messages" = some (JVal.num x))
      (firstB :: othersB) messagesB)
    (hB6 : AssocMap.get firstB "node" = some (JVal.str B))
    (hAB : A ≠ B) :
    (∀ final : Store V,
      (final = (requestData parseDuration nodeB (.response (some (.obj responseB)))
          (.response queuesB)
          (requestData parseDuration nodeA (.response (some (.obj responseA)))
            (.response queuesA) ⟨[], trace⟩).2).2.store ∨
        final = (requestData parseDuration nodeA (.response (some (.obj responseA)))
          (.response queuesA)
          (requestData parseDuration nodeB (.response (some (.obj responseB)))
            (.response queuesB) ⟨[], trace⟩).2).2.store) →
      final.length = 12 ∧
      (∀ key, (AssocMap.get final key).isSome = true ↔ (key.2 = A ∨ key.2 = B)) ∧
      (∀ g f, (g, f) ∈ overviewGauges →
        (∀ x, AssocMap.get totalsA f = some (JVal.num x) →
          AssocMap.get final (g, A) = some x) ∧
        (∀ x, AssocMap.get totalsB f = some (JVal.num x) →
          AssocMap.get final (g, B) = some x)) ∧
      AssocMap.get final (.messagesTotal, A) = some (messagesA.foldl (· + ·) 0) ∧
      AssocMap.get final (.messagesTotal, B) = some (messagesB.foldl (· + ·) 0)) ∧
    (∀ (st : PState V) (key : Gauge × String), key.2 ≠ A →
      AssocMap.get (requestData parseDuration nodeA (.response (some (.obj responseA)))
        (.response queuesA) st).2.store key = AssocMap.get st.store key) ∧
    (∀ (st : PState V) (key : Gauge × String), key.2 ≠ B →
      AssocMap.get (requestData parseDuration nodeB (.response (some (.obj responseB)))
        (.response queuesB) st).2.store key = AssocMap.get st.store key) := by
  have hcA := fun st => requestData_success_store parseDuration nodeA responseA totalsA queuesA
    firstA othersA messagesA A st hA1 hA2 hA3 hA4 hA5 hA6
  have hcB := fun st => requestData_success_store parseDuration nodeB responseB totalsB queuesB
    firstB othersB messagesB B st hB1 hB2 hB3 hB4 hB5 hB6
  have hframe : ∀ (totals : GoMap V) (L : String) (x : V) (store : Store V)
      (key : Gauge × String), key.2 ≠ L →
      AssocMap.get (AssocMap.set (overviewStore totals L store) (.messagesTotal, L) x) key =
        AssocMap.get store key := by
    intro totals L x store key hkey
    rw [AssocMap.get_set_of_ne _ _ _ _ (fun h => hkey (by rw [← h])),
      get_overviewStore_of_label_ne totals L store key hkey]
  have hval : ∀ (totals : GoMap V) (f : String) (x : V),
      AssocMap.get totals f = some (JVal.num x) → totalOf totals f = x := by
    intro totals f x hx
    simp [totalOf, hx]
  refine ⟨?_, ?_, ?_⟩
  · intro final hfinal
    rcases hfinal with h | h
    · rw [hcB, hcA] at h
      subst h
      have hv := two_cycles_values totalsA totalsB A B (messagesA.foldl (· + ·) 0)
        (messagesB.foldl (· + ·) 0) hAB
      refine ⟨?_, fun key => two_cycles_isSome totalsA totalsB A B _ _ hAB key, ?_, hv.2.1,
        hv.2.2⟩
      · simp only
        rw [two_cycles_store totalsA totalsB A B _ _ hAB]
        rfl
      · intro g f hmem
        refine ⟨fun x hx => ?_, fun x hx => ?_⟩
        · rw [(hv.1 g f hmem).1, hval totalsA f x hx]
        · rw [(hv.1 g f hmem).2, hval totalsB f x hx]
    · rw [hcA, hcB] at h
      subst h
      have hv := two_cycles_values totalsB totalsA B A (messagesB.foldl (· + ·) 0)
        (messagesA.foldl (· + ·) 0) (Ne.symm hAB)
      refine ⟨?_, fun key => ?_, ?_, hv.2.2, hv.2.1⟩
      · simp only
        rw [two_cycles_store totalsB totalsA B A _ _ (Ne.symm hAB)]
        rfl
      · rw [two_cycles_isSome totalsB totalsA B A _ _ (Ne.symm hAB) key]
        exact Or.comm
      · intro g f hmem
        refine ⟨fun x hx => ?_, fun x hx => ?_⟩
        · rw [(hv.1 g f hmem).2, hval totalsA f x hx]
        · rw [(hv.1 g f hmem).1, hval totalsB f x hx]
  · intro st key hkey
    rw [hcA]
    exact hframe _ _ _ _ _ hkey
  · intro st key hkey
    rw [hcB]
    exact hframe _ _ _ _ _ hkey

/-! ## When a step fails -/

theorem messagesLoop_eq_none_iff {V : Type} [Add V] (l : List (GoMap V)) :
    ∀ total : V, messagesLoop l total = none ↔
      ∃ e ∈ l, ∀ x, AssocMap.get e "messages" ≠ some (JVal.num x) := by
  induction l with
  | nil => intro total; simp [messagesLoop]
  | cons e rest ih =>
    intro total
    simp only [messagesLoop, List.mem_cons, exists_eq_or_imp]
    split
    · rename_i x hx
      rw [ih]
      constructor
      · intro h
        exact Or.inr h
      · rintro (h | h)
        · exact absurd hx (h x)
        · exact h
    · rename_i hne
      simp only [true_iff]
      exact Or.inl (fun x hx => hne x hx)

/-- The overview step panics exactly when no response arrives, when the
decoded body has no `object_totals` object, or when a field of
`object_totals` is not a number. -/
theorem getOverview_panicked_iff {V : Type} [Zero V] (hostname username password : String)
    (reply : ApiResult V) (st : PState V) :
    (∃ p, (getOverview hostname username password reply st).1 = .panicked p) ↔
      reply = .invalidRequest ∨ reply = .transportError ∨
      ∃ body, reply = .response body ∧
        ((∀ totals, AssocMap.get (decodeObj body) "object_totals" ≠ some (JVal.obj totals)) ∨
          ∃ totals k v, AssocMap.get (decodeObj body) "object_totals" = some (JVal.obj totals) ∧
            AssocMap.get totals k = some v ∧ v.isNum = false) := by
  cases reply with
  | invalidRequest => exact ⟨fun _ => Or.inl rfl, fun _ => ⟨.nilDereference, rfl⟩⟩
  | transportError => exact ⟨fun _ => Or.inr (Or.inl rfl), fun _ => ⟨.transport, rfl⟩⟩
  | response body =>
    rw [getOverview_response]
    constructor
    · rintro ⟨p, hp⟩
      refine Or.inr (Or.inr ⟨body, rfl, ?_⟩)
      split at hp
      · rename_i totals hget
        split at hp
        · cases hp
        · rename_i hn
          right
          by_contra hcon
          apply hn
          rw [allNumeric_iff]
          intro k v hkv
          by_contra hv
          exact hcon ⟨totals, k, v, hget, hkv, by simpa using hv⟩
      · rename_i hne
        exact Or.inl (fun totals h => hne totals h)
    · rintro (h | h | ⟨b, hb, h⟩)
      · cases h
      · cases h
      · cases hb
        rcases h with h | ⟨totals, k, v, hget, hkv, hv⟩
        · split
          · rename_i totals hget
            exact absurd hget (h totals)
          · exact ⟨_, rfl⟩
        · have hn : ¬ allNumeric totals = true := by
            intro hall
            have := (allNumeric_iff totals).1 hall k v hkv
            rw [this] at hv
            cases hv
          simp [hget, hn]

/-- The queue-list step panics exactly when no response arrives, when the
decoded array is empty, when the first element has no string `node`, or when
an element has no numeric `messages`. -/
theorem getNumberOfMessages_panicked_iff {V : Type} [Zero V] [Add V]
    (hostname username password : String) (reply : ApiResult V) (st : PState V) :
    (∃ p, (getNumberOfMessages hostname username password reply st).1 = .panicked p) ↔
      reply = .invalidRequest ∨ reply = .transportError ∨
      ∃ body, reply = .response body ∧
        (decodeObjArray body = [] ∨
          ∃ first others, decodeObjArray body = first :: others ∧
            ((∀ s, AssocMap.get first "node" ≠ some (JVal.str s)) ∨
              ∃ e ∈ first :: others, ∀ x, AssocMap.get e "messages" ≠ some (JVal.num x))) := by
  cases reply with
  | invalidRequest => exact ⟨fun _ => Or.inl rfl, fun _ => ⟨.nilDereference, rfl⟩⟩
  | transportError => exact ⟨fun _ => Or.inr (Or.inl rfl), fun _ => ⟨.transport, rfl⟩⟩
  | response body =>
    unfold getNumberOfMessages sendApiRequest
    simp only
    cases hd : decodeObjArray body with
    | nil =>
      simp only
      exact ⟨fun _ => Or.inr (Or.inr ⟨body, rfl, Or.inl hd⟩), fun _ => ⟨_, rfl⟩⟩
    | cons first others =>
      simp only
      constructor
      · rintro ⟨p, hp⟩
        refine Or.inr (Or.inr ⟨body, rfl, Or.inr ⟨first, others, hd, ?_⟩⟩)
        split at hp
        · rename_i nodename hnode
          split at hp
          · rename_i hloop
            exact Or.inr ((messagesLoop_eq_none_iff _ _).1 hloop)
          · cases hp
        · rename_i hne
          exact Or.inl (fun s hs => hne s hs)
      · rintro (h | h | ⟨b, hb, h⟩)
        · cases h
        · cases h
        · cases hb
          rcases h with h | ⟨f, o, hfo, h⟩
          · rw [hd] at h
            cases h
          · rw [hd] at hfo
            cases hfo
            rcases h with h | h
            · split
              · rename_i nodename hnode
                exact absurd hnode (h nodename)
              · exact ⟨_, rfl⟩
            · have hloop := (messagesLoop_eq_none_iff (first :: others) (0 : V)).2 h
              split
              · simp only [hloop]
                exact ⟨_, rfl⟩
              · exact ⟨_, rfl⟩

/-! ## Instances on sample inputs -/

theorem getOverview_sets_object_totals_witness :
    AssocMap.get sampleOverview "object_totals" = some (JVal.obj sampleTotals) ∧
    allNumeric sampleTotals = true ∧
    AssocMap.get sampleOverview "node" = some (JVal.str "rabbit@a") ∧
    (getOverview sampleNode.Url sampleNode.Uname sampleNode.Password
        (.response (some (.obj sampleOverview))) ⟨[], []⟩).1 = .returned ∧
    AssocMap.get (getOverview sampleNode.Url sampleNode.Uname sampleNode.Password
        (.response (some (.obj sampleOverview))) ⟨[], []⟩).2.store
        (.channelsTotal, "rabbit@a") = some 3 ∧
    AssocMap.get (getOverview sampleNode.Url sampleNode.Uname sampleNode.Password
        (.response (some (.obj sampleOverview))) ⟨[], []⟩).2.store
        (.exchangesTotal, "rabbit@a") = some 7 :=
  have h := getOverview_sets_object_totals sampleNode sampleOverview sampleTotals
    "rabbit@a" ⟨[], []⟩ rfl ((allNumeric_iff _).1 (by decide)) rfl
  ⟨rfl, by decide, rfl, h.1, h.2.1 3 rfl, h.2.2.2.2.2.1 7 rfl⟩

theorem getNumberOfMessages_sets_sum_witness :
    (getNumberOfMessages "http://a:15672" "guest" "guest" (.response sampleQueues)
        (⟨[], []⟩ : PState Int)).1 = .returned ∧
    AssocMap.get (getNumberOfMessages "http://a:15672" "guest" "guest"
        (.response sampleQueues) (⟨[], []⟩ : PState Int)).2.store
        (.messagesTotal, "rabbit@a") = some 12 ∧
    AssocMap.get (getNumberOfMessages "http://a:15672" "guest" "guest"
        (.response sampleQueues) (⟨[], []⟩ : PState Int)).2.store
        (.messagesTotal, "rabbit@other") = none :=
  have h := getNumberOfMessages_sets_sum "http://a:15672" "guest" "guest" sampleQueues
    (⟨[], []⟩ : PState Int)
    [("name", .str "q1"), ("node", .str "rabbit@a"), ("messages", .num 5)]
    [[("name", .str "q2"), ("node", .str "rabbit@other"), ("messages", .num 7)]]
    [5, 7] "rabbit@a" rfl
    (List.Forall₂.cons rfl (List.Forall₂.cons rfl List.Forall₂.nil)) rfl
  ⟨h.1, h.2.2.1, (h.2.2.2 (.messagesTotal, "rabbit@other") (by decide)).trans rfl⟩

theorem requestData_backoff_witness :
    (getNumberOfMessages sampleNode.Url sampleNode.Uname sampleNode.Password
        (.response (some (JVal.arr ([] : List (JVal Int)))))
        (getOverview sampleNode.Url sampleNode.Uname sampleNode.Password
          (.response (some (.obj sampleOverview))) ⟨[], []⟩).2).1 =
      .panicked .indexOutOfRange ∧
    (requestData sampleParseDuration sampleNode (.response (some (.obj sampleOverview)))
        (.response (some (JVal.arr ([] : List (JVal Int))))) ⟨[], []⟩).1 = .returned ∧
    (requestData sampleParseDuration sampleNode (.response (some (.obj sampleOverview)))
        (.response (some (JVal.arr ([] : List (JVal Int))))) ⟨[], []⟩).2.trace =
      [Event.fetch "http://a:15672/api/overview" "guest" "guest",
        Event.fetch "http://a:15672/api/queues" "guest" "guest",
        Event.sleep 10000000000] :=
  have h := requestData_backoff sampleParseDuration sampleNode
    (.response (some (.obj sampleOverview)))
    (.response (some (JVal.arr ([] : List (JVal Int))))) ⟨[], []⟩
    (Or.inr ⟨.indexOutOfRange, rfl⟩)
  ⟨rfl, h.1, by decide⟩

theorem requestData_success_sleep_witness :
    sampleNode.Interval = "45s" ∧ sampleParseDuration "45s" = some (45 * second) ∧
    (requestData sampleParseDuration sampleNode (.response (some (.obj sampleOverview)))
        (.response sampleQueues) ⟨[], []⟩).2.trace =
      [] ++ [Event.fetch (sampleNode.Url ++ "/api/overview") sampleNode.Uname
          sampleNode.Password,
        Event.fetch (sampleNode.Url ++ "/api/queues") sampleNode.Uname sampleNode.Password,
        Event.sleep (45 * second)] ∧
    (requestData sampleParseDuration { sampleNode with Interval := "abc" }
        (.response (some (.obj sampleOverview))) (.response sampleQueues) ⟨[], []⟩).2.trace =
      [Event.fetch "http://a:15672/api/overview" "guest" "guest",
        Event.fetch "http://a:15672/api/queues" "guest" "guest",
        Event.sleep 30000000000] :=
  have h := requestData_success_sleep sampleParseDuration sampleNode
    (.response (some (.obj sampleOverview))) (.response sampleQueues) ⟨[], []⟩ rfl rfl
  have h2 := requestData_success_sleep sampleParseDuration { sampleNode with Interval := "abc" }
    (.response (some (.obj sampleOverview))) (.response sampleQueues) ⟨[], []⟩ rfl rfl
  ⟨rfl, rfl, h.2.2.2.1 rfl rfl, h2.2.2.2.2.1 rfl rfl⟩

/-- C4, counterexample: from the empty store, a cycle whose overview step
succeeds and whose queue-list request suffers a transport failure ends with
five entries in the store. -/
theorem requestData_queue_transport_failure_mutates :
    (requestData sampleParseDuration sampleNode (.response (some (.obj sampleOverview)))
        (ApiResult.transportError : ApiResult Int) ⟨[], []⟩).2.store =
      [((.channelsTotal, "rabbit@a"), 3), ((.connectionsTotal, "rabbit@a"), 2),
        ((.consumersTotal, "rabbit@a"), 1), ((.queuesTotal, "rabbit@a"), 4),
        ((.exchangesTotal, "rabbit@a"), 7)] ∧
    (requestData sampleParseDuration sampleNode (.response (some (.obj sampleOverview)))
        (ApiResult.transportError : ApiResult Int) ⟨[], []⟩).2.store ≠
      (⟨[], []⟩ : PState Int).store := by
  constructor <;> decide

theorem requestData_transport_failure_store_witness :
    (requestData sampleParseDuration sampleNode (ApiResult.transportError : ApiResult Int)
        (.response sampleQueues) ⟨[((.queuesTotal, "rabbit@a"), 1)], []⟩).2.store =
      [((.queuesTotal, "rabbit@a"), 1)] ∧
    AssocMap.get (requestData sampleParseDuration sampleNode
        (.response (some (.obj sampleOverview))) (ApiResult.transportError : ApiResult Int)
        ⟨[((.messagesTotal, "rabbit@a"), 8)], []⟩).2.store (.messagesTotal, "rabbit@a") =
      some 8 :=
  have h1 := requestData_transport_failure_store sampleParseDuration sampleNode
    (ApiResult.transportError : ApiResult Int) (.response sampleQueues)
    ⟨[((.queuesTotal, "rabbit@a"), 1)], []⟩
  have h2 := requestData_transport_failure_store sampleParseDuration sampleNode
    (.response (some (.obj sampleOverview))) (ApiResult.transportError : ApiResult Int)
    ⟨[((.messagesTotal, "rabbit@a"), 8)], []⟩
  ⟨h1.1 rfl, ((h2.2 rfl).2.1 "rabbit@a").trans rfl⟩

/-- C9, counterexample: `getOverview` returns and writes entries for a payload
without `channels` (channels_total becomes 0), for a payload without `node`
and for a payload whose `node` is a number (both are recorded at the empty
label). -/
theorem getOverview_defaults_missing_fields :
    ((getOverview "http://a:15672" "guest" "guest"
        (.response (some (.obj overviewWithoutChannels))) ⟨[], []⟩).1 = .returned ∧
      AssocMap.get (getOverview "http://a:15672" "guest" "guest"
        (.response (some (.obj overviewWithoutChannels))) ⟨[], []⟩).2.store
        (.channelsTotal, "rabbit@a") = some 0) ∧
    ((getOverview "http://a:15672" "guest" "guest"
        (.response (some (.obj overviewWithoutNode))) ⟨[], []⟩).1 = .returned ∧
      AssocMap.get (getOverview "http://a:15672" "guest" "guest"
        (.response (some (.obj overviewWithoutNode))) ⟨[], []⟩).2.store
        (.channelsTotal, "") = some 3) ∧
    ((getOverview "http://a:15672" "guest" "guest"
        (.response (some (.obj overviewWithNumericNode))) ⟨[], []⟩).1 = .returned ∧
      AssocMap.get (getOverview "http://a:15672" "guest" "guest"
        (.response (some (.obj overviewWithNumericNode))) ⟨[], []⟩).2.store
        (.channelsTotal, "") = some 3) := by
  refine ⟨⟨?_, ?_⟩, ⟨?_, ?_⟩, ⟨?_, ?_⟩⟩ <;> decide

theorem getOverview_missing_or_mistyped_witness :
    ((getOverview "http://a:15672" "guest" "guest" (.response (none : Body Int))
        ⟨[], []⟩).1 = .panicked .typeAssertion ∧
      (getOverview "http://a:15672" "guest" "guest" (.response (none : Body Int))
        ⟨[], []⟩).2.store = []) ∧
    ((getOverview "http://a:15672" "guest" "guest"
        (.response (some (.obj overviewWithTextChannels))) ⟨[], []⟩).1 =
          .panicked .typeAssertion ∧
      (getOverview "http://a:15672" "guest" "guest"
        (.response (some (.obj overviewWithTextChannels))) ⟨[], []⟩).2.store = []) ∧
    AssocMap.get (getOverview "http://a:15672" "guest" "guest"
        (.response (some (.obj overviewWithoutNode))) ⟨[], []⟩).2.store
        (.queuesTotal, "") = some 4 :=
  have h1 := (getOverview_missing_or_mistyped "http://a:15672" "guest" "guest"
    (none : Body Int) ⟨[], []⟩).1 (fun totals h => by cases h)
  have h2 := (getOverview_missing_or_mistyped "http://a:15672" "guest" "guest"
    (some (.obj overviewWithTextChannels)) ⟨[], []⟩).2.1
    [("channels", .str "3"), ("connections", .num 2)] rfl
    ⟨"channels", .str "3", rfl, rfl⟩
  have h3 := (getOverview_missing_or_mistyped "http://a:15672" "guest" "guest"
    (some (.obj overviewWithoutNode)) ⟨[], []⟩).2.2 sampleTotals rfl
    ((allNumeric_iff _).1 (by decide))
  ⟨h1, h2, (h3.2 "" (Or.inr ⟨fun s h => (by cases h), rfl⟩) .queuesTotal "queues"
    (by decide)).1 4 rfl⟩

theorem cycle_writes_by_step_witness :
    AssocMap.get (requestData sampleParseDuration sampleNode
        (.response (some (.obj sampleOverview))) (ApiResult.transportError : ApiResult Int)
        ⟨[((.messagesTotal, "rabbit@a"), 8)], []⟩).2.store
        (.connectionsTotal, nodenameOf (decodeObj (some (.obj sampleOverview)))) =
      some (totalOf sampleTotals "connections") ∧
    AssocMap.get (requestData sampleParseDuration sampleNode
        (.response (some (.obj sampleOverview))) (ApiResult.transportError : ApiResult Int)
        ⟨[((.messagesTotal, "rabbit@a"), 8)], []⟩).2.store (.messagesTotal, "rabbit@a") =
      some 8 ∧
    (getOverview sampleNode.Url sampleNode.Uname sampleNode.Password
        (ApiResult.transportError : ApiResult Int)
        ⟨[((.messagesTotal, "rabbit@a"), 8)], []⟩).2.store =
      [((.messagesTotal, "rabbit@a"), 8)] :=
  have h := cycle_writes_by_step sampleParseDuration sampleNode
    (.response (some (.obj sampleOverview))) (ApiResult.transportError : ApiResult Int)
    ⟨[((.messagesTotal, "rabbit@a"), 8)], []⟩
  have h3 := h.2.2 (some (.obj sampleOverview)) sampleTotals .transport rfl rfl rfl rfl
  have h0 := cycle_writes_by_step sampleParseDuration sampleNode
    (ApiResult.transportError : ApiResult Int) (ApiResult.transportError : ApiResult Int)
    ⟨[((.messagesTotal, "rabbit@a"), 8)], []⟩
  ⟨h3.1 .connectionsTotal "connections" (by decide), (h3.2.2 "rabbit@a").trans rfl,
    (h0.1 .transport rfl).1⟩

theorem updateNodesStats_launches_witness :
    (updateNodesStats sampleConfig).1 = .returned ∧
    (updateNodesStats sampleConfig).2.2 =
      [sampleNode, ⟨"node-b", "http://b:15672", "admin", "secret", "1m"⟩] ∧
    (updateNodesStats sampleConfig).2.1 = sampleConfig :=
  have h := updateNodesStats_launches sampleConfig
  ⟨h.2.2.2 [sampleNode, sampleNodeB] rfl, by decide, h.2.2.1⟩

theorem two_nodes_twelve_entries_witness :
    (requestData sampleParseDuration sampleNodeB (.response (some (.obj sampleOverviewB)))
        (.response sampleQueuesB)
        (requestData sampleParseDuration sampleNode (.response (some (.obj sampleOverview)))
          (.response sampleQueues) ⟨[], []⟩).2).2.store.length = 12 ∧
    AssocMap.get (requestData sampleParseDuration sampleNodeB
        (.response (some (.obj sampleOverviewB))) (.response sampleQueuesB)
        (requestData sampleParseDuration sampleNode (.response (some (.obj sampleOverview)))
          (.response sampleQueues) ⟨[], []⟩).2).2.store (.messagesTotal, "rabbit@a") =
      some 12 ∧
    AssocMap.get (requestData sampleParseDuration sampleNodeB
        (.response (some (.obj sampleOverviewB))) (.response sampleQueuesB)
        (requestData sampleParseDuration sampleNode (.response (some (.obj sampleOverview)))
          (.response sampleQueues) ⟨[], []⟩).2).2.store (.queuesTotal, "rabbit@b") =
      some 40 :=
  have h := (two_nodes_twelve_entries sampleParseDuration sampleNode sampleNodeB []
    sampleOverview sampleTotals sampleQueues
    [("name", .str "q1"), ("node", .str "rabbit@a"), ("messages", .num 5)]
    [[("name", .str "q2"), ("node", .str "rabbit@other"), ("messages", .num 7)]]
    [5, 7] "rabbit@a"
    sampleOverviewB sampleTotalsB sampleQueuesB
    [("name", .str "q3"), ("node", .str "rabbit@b"), ("messages", .num 9)] [] [9] "rabbit@b"
    rfl ((allNumeric_iff _).1 (by decide)) rfl rfl
    (List.Forall₂.cons rfl (List.Forall₂.cons rfl List.Forall₂.nil)) rfl
    rfl ((allNumeric_iff _).1 (by decide)) rfl rfl
    (List.Forall₂.cons rfl List.Forall₂.nil) rfl (by decide)).1 _ (Or.inl rfl)
  ⟨h.1, h.2.2.2.1, (h.2.2.1 .queuesTotal "queues" (by decide)).2 40 rfl⟩

end RabbitmqExporter
